import Mathlib

/-!
Shallow embedding of the build-analysis core of a PC-build chatbot:
catalog items, the build analyzer (`analyzeBuild`), the candidate ranker
(`optimizeResultsForQuery` and its helpers), the budget parser, the build
extractor (`parseBuildList`) and the grade function (`calculateGrade`).

Conventions used throughout:
* JS numbers that the code only ever uses as integers (prices, wattages,
  scores) are modelled as `Nat`/`Int`; the few fractional constants
  (`1.2`, `1.3`, `0.75`, budget shares) are modelled exactly in `ℚ`,
  idealising IEEE doubles by exact rational arithmetic.
* `undefined`/`null` fields become `Option`; the JS idiom `x || d`
  on numbers/strings is translated at each use site.
* A JS `Map` is an association list with insert-or-overwrite keeping the
  original key position (`mapSet`), which is exactly the JS `Map.set`
  insertion-order semantics.
* `list.sort((a,b)=>a.key-b.key)[0]` (stable sort, then head) is modelled
  by `firstMinBy`, the first element of the list attaining the minimal key.
-/

/-- `ProductSpecs`: the specification-field bag of a catalog item; only the
fields the analysed code reads are modelled, each optional as in the
TypeScript interface. `ramType` embeds the TS field `type`. -/
structure ProductSpecs where
  tdp : Option String := none
  socket : Option String := none
  wattage : Option Nat := none
  height_mm : Option Nat := none
  max_cooler_height_mm : Option Nat := none
  length_mm : Option Nat := none
  max_gpu_length_mm : Option Nat := none
  ramType : Option String := none
  speed : Option String := none
  chipset : Option String := none
  tdp_rating : Option String := none
  deriving DecidableEq, Repr

/-- `Product`: one catalog item (id, names, category, brand, price, stock
flag, specs, optional performance tier). `stock = none` means the field is
absent and the item counts as in stock (`stock !== false`). -/
structure Product where
  id : String
  name : String
  normalized_name : String
  category : String
  brand : String
  price : Nat
  stock : Option Bool := none
  specs : ProductSpecs := {}
  performance_tier : Option String := none
  deriving DecidableEq, Repr

/-- The JS test `p.stock !== false`. -/
def inStock (p : Product) : Bool := p.stock ≠ some false

/-- `ParsedComponent`: one detected component of a parsed build. -/
structure ParsedComponent where
  category : String
  rawText : String
  matchedProduct : Option Product
  confidence : ℚ
  extractedPrice : Option Nat := none
  sourceURL : Option String := none
  deriving DecidableEq, Repr

/-- `ParsedBuild`: the extractor's output. -/
structure ParsedBuild where
  components : List ParsedComponent
  unmatchedText : List String
  deriving DecidableEq, Repr

/-- Issue severity (`"critical" | "warning" | "info"`). -/
inductive Severity where
  | critical
  | warning
  | info
  deriving DecidableEq, Repr

/-- `AnalysisIssue`: one issue emitted by the analyzer.  `itype` embeds the
TS field `type` (a string union; kept as `String` here). -/
structure AnalysisIssue where
  itype : String
  severity : Severity
  title : String
  description : String
  suggestion : Option String := none
  alternativeProduct : Option Product := none
  savingsAmount : Option Nat := none
  deriving DecidableEq, Repr

/-- `BuildAnalysis`: the analyzer's result. -/
structure BuildAnalysis where
  issues : List AnalysisIssue
  totalPrice : Nat
  missingCategories : List String
  overallScore : Int
  deriving DecidableEq, Repr

/-- Digits of a string, in order: models `s.replace(/\D/g, "")`. -/
def digitsOf (s : String) : List Char := s.data.filter Char.isDigit

/-- Decimal value of a digit list (the value `parseInt` returns on an
all-digit string). -/
def natOfDigits (ds : List Char) : Nat :=
  ds.foldl (fun n c => n * 10 + (c.toNat - 48)) 0

/-- `parseInt(t?.replace(/\D/g, "") || dflt)`: strip non-digits; an absent
field or an empty digit string falls back to the default. -/
def parseTDP (t : Option String) (dflt : Nat) : Nat :=
  match t with
  | none => dflt
  | some s => match digitsOf s with
    | [] => dflt
    | ds => natOfDigits ds

/-- Pair grouping (least-significant first) for the en-IN locale. -/
def grp2 : List Char → List Char
  | [] => []
  | [a] => [a]
  | [a, b] => [a, b]
  | a :: b :: rest => a :: b :: ',' :: grp2 rest

/-- Group the digits of a number in the en-IN locale style (last three,
then pairs): models `n.toLocaleString("en-IN")`. -/
def formatIN (n : Nat) : String :=
  let rev := (toString n).data.reverse
  let withCommas :=
    if rev.length ≤ 3 then rev
    else rev.take 3 ++ (',' :: grp2 (rev.drop 3))
  ⟨withCommas.reverse⟩

/-- JS `Map.set`: overwrite in place when the key exists, append otherwise. -/
def mapSet (m : List (String × Product)) (k : String) (v : Product) :
    List (String × Product) :=
  match m with
  | [] => [(k, v)]
  | (k₁, v₁) :: rest =>
    if k₁ = k then (k, v) :: rest else (k₁, v₁) :: mapSet rest k v

/-- JS `Map.get`. -/
def mapGet (m : List (String × Product)) (k : String) : Option Product :=
  (m.find? (fun e => e.1 = k)).map (·.2)

/-- The `matchedByCategory` map built at the top of `analyzeBuild`: for each
component carrying a matched product, `map.set(comp.category,
comp.matchedProduct)`. -/
def matchedMap (comps : List ParsedComponent) : List (String × Product) :=
  comps.foldl
    (fun m c =>
      match c.matchedProduct with
      | some p => mapSet m c.category p
      | none => m)
    []

/-- `TIER_SCORES[t ?? "mid-range"] || 2`. -/
def tierScore (t : Option String) : Nat :=
  match t.getD "mid-range" with
  | "budget" => 1
  | "mid-range" => 2
  | "high-end" => 3
  | _ => 2

/-- The display text of an optional tier in a template literal
(`undefined` when the field is absent). -/
def tierText (t : Option String) : String := t.getD "undefined"

/-- `REQUIRED_CATEGORIES` of the analyzer. -/
def REQUIRED_CATEGORIES : List String :=
  ["CPU", "GPU", "RAM", "Motherboard", "PSU", "Storage"]

/-- `estimateTotalTDP`: CPU TDP (default 65) + GPU TDP (default 150) +
100 W overhead. -/
def estimateTotalTDP (cpu gpu : Product) : Nat :=
  parseTDP cpu.specs.tdp 65 + parseTDP gpu.specs.tdp 150 + 100

/-- `Math.ceil(estimatedTDP * 1.3 / 50) * 50`, in exact rational
arithmetic. -/
def recommendedWattage (estimatedTDP : Nat) : Int :=
  ⌈(estimatedTDP : ℚ) * 1.3 / 50⌉ * 50

/-- `findBetterPSU`: the first catalog product of category PSU whose
wattage (defaulted to 0) reaches the minimum. -/
def findBetterPSU (minWattage : Int) (products : List Product) :
    Option Product :=
  (products.filter (fun p => p.category = "PSU")).find?
    (fun p => minWattage ≤ ((p.specs.wattage.getD 0 : Nat) : Int))

/-- First element of a list attaining the minimal price: the semantics of
the stable `sort((a,b) => a.price - b.price)[0]` used by the code. -/
def firstMinBy (l : List Product) : Option Product :=
  match l with
  | [] => none
  | x :: xs => some (xs.foldl (fun b p => if p.price < b.price then p else b) x)

/-- First element attaining the minimal rational key: the semantics of the
stable `sort((a,b) => key(a) - key(b))[0]`. -/
def firstMinByKey (f : Product → ℚ) (l : List Product) : Option Product :=
  match l with
  | [] => none
  | x :: xs => some (xs.foldl (fun b p => if f p < f b then p else b) x)

/-- Does the first list occur as a prefix of the second? -/
def listStartsWith : List Char → List Char → Bool
  | [], _ => true
  | _ :: _, [] => false
  | a :: as, b :: bs => a = b && listStartsWith as bs

/-- Does the first list occur as a contiguous sublist of the second?
Models JS `String.prototype.includes`. -/
def listInfix (needle : List Char) : List Char → Bool
  | [] => listStartsWith needle []
  | b :: bs => listStartsWith needle (b :: bs) || listInfix needle bs

/-- Lower-cased infix test: `a.toLowerCase().includes(b)` with `b` already
lower-case. -/
def containsLower (hay : String) (needle : String) : Bool :=
  listInfix needle.data (hay.data.map Char.toLower)

/-- `detectDDRType` for a RAM product: DDR keyword in name or `type` spec,
else inferred from the parsed speed (≥4800 ⇒ DDR5, 2133–4799 ⇒ DDR4). -/
def detectDDRType (ram : Product) : Option String :=
  let tspec := (ram.specs.ramType.getD "").data.map Char.toLower
  if containsLower ram.name "ddr5" ∨ listInfix "ddr5".data tspec then some "DDR5"
  else if containsLower ram.name "ddr4" ∨ listInfix "ddr4".data tspec then some "DDR4"
  else
    match ram.specs.speed with
    | none => none
    | some sp =>
      match digitsOf sp with
      | [] => none
      | ds =>
        let mhz := natOfDigits ds
        if 4800 ≤ mhz then some "DDR5"
        else if 2133 ≤ mhz ∧ mhz < 4800 then some "DDR4"
        else none

/-- `detectMoboDDRSupport`: explicit DDR keyword in name or `type` spec,
else the fixed chipset table. -/
def detectMoboDDRSupport (mobo : Product) : Option String :=
  let tspec := (mobo.specs.ramType.getD "").data.map Char.toLower
  let chip := (mobo.specs.chipset.getD "").data.map Char.toLower
  let hasChip : String → Bool := fun s => listInfix s.data chip
  if containsLower mobo.name "ddr5" ∨ listInfix "ddr5".data tspec then some "DDR5"
  else if containsLower mobo.name "ddr4" ∨ listInfix "ddr4".data tspec then some "DDR4"
  else if hasChip "b650" ∨ hasChip "x670" ∨ hasChip "x870" then some "DDR5"
  else if hasChip "b550" ∨ hasChip "x570" ∨ hasChip "b450" then some "DDR4"
  else if hasChip "z790" ∨ hasChip "z690" then some "DDR5"
  else if hasChip "b660" ∨ hasChip "h670" ∨ hasChip "b760" then some "DDR4"
  else none

/-- `detectCPUBrand`: Intel/AMD from brand or name keywords. -/
def detectCPUBrand (cpu : Product) : Option String :=
  let nm := cpu.name
  let br := cpu.brand
  if containsLower br "intel" ∨ containsLower nm "intel" ∨ containsLower nm "core i"
  then some "Intel"
  else if containsLower br "amd" ∨ containsLower nm "amd" ∨
      containsLower nm "ryzen" ∨ containsLower nm "athlon"
  then some "AMD"
  else none

/-- `detectMoboPlatform`: chipset tables first, then name keywords. -/
def detectMoboPlatform (mobo : Product) : Option String :=
  let chip := (mobo.specs.chipset.getD "").data.map Char.toLower
  let hasChip : String → Bool := fun s => listInfix s.data chip
  if hasChip "b650" ∨ hasChip "x670" ∨ hasChip "x870" ∨ hasChip "b550" ∨
      hasChip "x570" ∨ hasChip "b450" ∨ hasChip "x370" ∨ hasChip "b350" ∨
      hasChip "a520" then some "AMD"
  else if hasChip "z790" ∨ hasChip "z690" ∨ hasChip "b760" ∨ hasChip "b660" ∨
      hasChip "h670" ∨ hasChip "h610" ∨ hasChip "z590" ∨ hasChip "b560" ∨
      hasChip "h510" then some "Intel"
  else if containsLower mobo.name "amd" ∨ containsLower mobo.name "am4" ∨
      containsLower mobo.name "am5" then some "AMD"
  else if containsLower mobo.name "intel" ∨ containsLower mobo.name "lga 1700" ∨
      containsLower mobo.name "lga 1200" then some "Intel"
  else none

/-- A cooler passes the `findAftermarketCooler` filter: no rating (or empty
rating string) is acceptable, otherwise its parsed rating must reach the
CPU TDP (a rating with no digits parses to NaN and fails the `>=`). -/
def coolerAdequate (c : Product) (cpuTDP : Nat) : Bool :=
  match c.specs.tdp_rating with
  | none => true
  | some r =>
    if r = "" then true
    else match digitsOf r with
      | [] => false
      | ds => cpuTDP ≤ natOfDigits ds

/-- `findAftermarketCooler`: cheapest catalog cooler passing the rating
filter (stable sort by price, head). -/
def findAftermarketCooler (cpuTDP : Nat) (products : List Product) :
    Option Product :=
  firstMinBy
    ((products.filter (fun p => p.category = "CPU Cooler")).filter
      (fun c => coolerAdequate c cpuTDP))

/-- The filter of `checkOverspending`: same category, different id, price
strictly below 75 % of the selected item's, in stock, same tier. -/
def overspendAlt (category : String) (product : Product) (p : Product) : Bool :=
  p.category = category ∧ p.id ≠ product.id ∧
    ((p.price : ℚ) < (product.price : ℚ) * 0.75) ∧
    inStock p ∧ p.performance_tier = product.performance_tier

/-- One entry of `checkOverspending`: flag the cheapest qualifying
alternative of a kept item when it saves at least 2000. -/
def overspendIssuesFor (allProducts : List Product) (category : String)
    (product : Product) : List AnalysisIssue :=
  match firstMinBy (allProducts.filter (overspendAlt category product)) with
  | none => []
  | some cheapest =>
    if 2000 ≤ product.price - cheapest.price then
      [{ itype := "overspending"
         severity := .info
         title := "💸 Overspending on " ++ category
         description := product.name ++ " costs ₹" ++ formatIN product.price ++
           ". A similar option is available for less."
         suggestion := some ("Consider " ++ cheapest.name ++ " to save ₹" ++
           formatIN (product.price - cheapest.price) ++ ".")
         alternativeProduct := some cheapest
         savingsAmount := some (product.price - cheapest.price) }]
    else []

/-- `checkOverspending`: the overspending check over every kept map entry,
in map order. -/
def checkOverspending (m : List (String × Product)) (allProducts : List Product) :
    List AnalysisIssue :=
  m.foldr (fun e acc => overspendIssuesFor allProducts e.1 e.2 ++ acc) []

/-- The per-issue score penalty (25 critical / 10 warning / 5 info). -/
def penalty (i : AnalysisIssue) : Int :=
  match i.severity with
  | .critical => 25
  | .warning => 10
  | .info => 5

/-- The missing-categories rule. -/
def missingIssuesOf (missingCategories : List String) : List AnalysisIssue :=
  if missingCategories.length ≠ 0 then
    [{ itype := "missing", severity := .info, title := "Incomplete Build"
       description := "Missing components: " ++ String.intercalate ", " missingCategories
       suggestion := some "Add the missing components for a complete build." }]
  else []

/-- The CPU/GPU tier bottleneck rule. -/
def bottleneckIssuesOf (cpu? gpu? : Option Product) : List AnalysisIssue :=
  match cpu?, gpu? with
    | some c, some g =>
      let ct := tierScore c.performance_tier
      let gt := tierScore g.performance_tier
      if ct < gt then
        [{ itype := "bottleneck", severity := .warning
           title := "CPU Bottleneck Detected 🔻"
           description := "Your " ++ c.name ++ " (" ++ tierText c.performance_tier ++
             ") may bottleneck the " ++ g.name ++ " (" ++ tierText g.performance_tier ++ ")."
           suggestion := some "Consider upgrading to a higher-tier CPU to fully utilize your GPU." }]
      else if gt < ct then
        [{ itype := "bottleneck", severity := .info
           title := "GPU Bottleneck Detected"
           description := "Your " ++ g.name ++ " may limit gaming performance. The " ++
             c.name ++ " can handle a better GPU."
           suggestion := some "Consider upgrading the GPU for better gaming performance." }]
      else []
    | _, _ => []

/-- The PSU-headroom rule. -/
def psuIssuesOf (products : List Product) (cpu? gpu? psu? : Option Product) :
    List AnalysisIssue :=
  match cpu?, gpu?, psu? with
    | some c, some g, some ps =>
      let estimatedTDP := estimateTotalTDP c g
      let psuWattage := ps.specs.wattage.getD 0
      if (psuWattage : ℚ) < (estimatedTDP : ℚ) * 1.2 then
        let recW := recommendedWattage estimatedTDP
        [{ itype := "psu_warning", severity := .critical
           title := "⚠️ Insufficient PSU Wattage"
           description := "Your " ++ ps.name ++ " (" ++ toString psuWattage ++
             "W) is risky for this build. Estimated system draw: ~" ++
             toString estimatedTDP ++ "W."
           suggestion := some ("Upgrade to at least " ++ toString recW ++
             "W PSU for safe operation.")
           alternativeProduct := findBetterPSU recW products }]
      else []
    | _, _, _ => []

/-- The socket-mismatch rule. -/
def socketIssuesOf (cpu? mobo? : Option Product) : List AnalysisIssue :=
  match cpu?, mobo? with
    | some c, some mb =>
      match c.specs.socket, mb.specs.socket with
      | some cs, some ms =>
        if cs ≠ ms ∧ cs ≠ "" ∧ ms ≠ "" then
          [{ itype := "compatibility", severity := .critical
             title := "🔴 Socket Mismatch!"
             description := c.name ++ " uses " ++ cs ++ " but " ++ mb.name ++
               " uses " ++ ms ++ ". These are incompatible!"
             suggestion := some ("Get a motherboard with " ++ cs ++
               " socket, or change your CPU to match " ++ ms ++ ".") }]
        else []
      | _, _ => []
    | _, _ => []

/-- The cooler/case clearance rule. -/
def coolerClearanceIssuesOf (cooler? pcCase? : Option Product) : List AnalysisIssue :=
  match cooler?, pcCase? with
    | some co, some ca =>
      let h := co.specs.height_mm.getD 0
      let maxH := match ca.specs.max_cooler_height_mm with
        | none => 999
        | some 0 => 999
        | some v => v
      if maxH < h then
        [{ itype := "compatibility", severity := .critical
           title := "❌ Cooler Won't Fit!"
           description := co.name ++ " is " ++ toString h ++ "mm tall, but " ++
             ca.name ++ " only supports " ++ toString maxH ++ "mm."
           suggestion := some "Choose a shorter cooler or a case with more CPU cooler clearance." }]
      else []
    | _, _ => []

/-- The GPU/case length rule. -/
def gpuClearanceIssuesOf (gpu? pcCase? : Option Product) : List AnalysisIssue :=
  match gpu?, pcCase? with
    | some g, some ca =>
      let len := g.specs.length_mm.getD 0
      let maxL := match ca.specs.max_gpu_length_mm with
        | none => 999
        | some 0 => 999
        | some v => v
      if maxL < len then
        [{ itype := "compatibility", severity := .critical
           title := "❌ GPU Won't Fit!"
           description := g.name ++ " is " ++ toString len ++ "mm long, but " ++
             ca.name ++ " only supports " ++ toString maxL ++ "mm."
           suggestion := some "Choose a shorter GPU or a larger case." }]
      else []
    | _, _ => []

/-- The DDR4/DDR5 RAM compatibility rule. -/
def ramIssuesOf (ram? mobo? : Option Product) : List AnalysisIssue :=
  match ram?, mobo? with
    | some r, some mb =>
      match detectDDRType r, detectMoboDDRSupport mb with
      | some rt, some mt =>
        if rt ≠ mt then
          [{ itype := "ram_compatibility", severity := .critical
             title := "🔴 RAM Type Mismatch!"
             description := r.name ++ " is " ++ rt ++ " but " ++ mb.name ++
               " supports " ++ mt ++ ". They are incompatible!"
             suggestion := some ("Get " ++ mt ++
               " RAM to match your motherboard, or change motherboard to " ++
               rt ++ "-compatible.") }]
        else []
      | _, _ => []
    | _, _ => []

/-- The Intel/AMD platform-mismatch rule. -/
def chipsetIssuesOf (cpu? mobo? : Option Product) : List AnalysisIssue :=
  match cpu?, mobo? with
    | some c, some mb =>
      match detectCPUBrand c, detectMoboPlatform mb with
      | some cb, some mp =>
        if cb ≠ mp then
          [{ itype := "chipset_mismatch", severity := .critical
             title := "🔴 Platform Mismatch!"
             description := c.name ++ " (" ++ cb ++ ") cannot work on " ++
               mb.name ++ " (" ++ mp ++ " platform)!"
             suggestion := some ("Use an " ++ cb ++ " motherboard for your " ++
               cb ++ " CPU.") }]
        else []
      | _, _ => []
    | _, _ => []

/-- The cooling-adequacy rule (fires only when no cooler is selected). -/
def coolingIssuesOf (products : List Product) (cpu? cooler? : Option Product) :
    List AnalysisIssue :=
  match cpu?, cooler? with
    | some c, none =>
      let cpuTDP := parseTDP c.specs.tdp 65
      if 105 ≤ cpuTDP then
        [{ itype := "cooling_inadequate", severity := .warning
           title := "🌡️ Cooling May Be Insufficient"
           description := c.name ++ " has a TDP of " ++ toString cpuTDP ++
             "W. Stock cooler may struggle under load."
           suggestion := some "Add an aftermarket cooler for better thermals and sustained performance."
           alternativeProduct := findAftermarketCooler cpuTDP products }]
      else []
    | _, _ => []

/-- The full ordered issue list of `analyzeBuild` for a given matched map. -/
def issuesOf (products : List Product) (m : List (String × Product)) :
    List AnalysisIssue :=
  missingIssuesOf (REQUIRED_CATEGORIES.filter (fun c => (mapGet m c).isNone)) ++
  bottleneckIssuesOf (mapGet m "CPU") (mapGet m "GPU") ++
  psuIssuesOf products (mapGet m "CPU") (mapGet m "GPU") (mapGet m "PSU") ++
  socketIssuesOf (mapGet m "CPU") (mapGet m "Motherboard") ++
  coolerClearanceIssuesOf (mapGet m "CPU Cooler") (mapGet m "Case") ++
  gpuClearanceIssuesOf (mapGet m "GPU") (mapGet m "Case") ++
  ramIssuesOf (mapGet m "RAM") (mapGet m "Motherboard") ++
  chipsetIssuesOf (mapGet m "CPU") (mapGet m "Motherboard") ++
  coolingIssuesOf products (mapGet m "CPU") (mapGet m "CPU Cooler") ++
  checkOverspending m products

/-- The body of `analyzeBuild` once the `matchedByCategory` map is built:
all rule checks, total price, and the clamped score. -/
def analyzeFromMap (products : List Product) (m : List (String × Product)) :
    BuildAnalysis :=
  let issues := issuesOf products m
  { issues := issues
    totalPrice := (m.map (fun e => e.2.price)).sum
    missingCategories := REQUIRED_CATEGORIES.filter (fun c => (mapGet m c).isNone)
    overallScore := max 0 (issues.foldl (fun s i => s - penalty i) 100) }

/-- `analyzeBuild`: build the matched-by-category map, then run all checks.
The catalog (the module-global `products` in the source) is passed
explicitly. -/
def analyzeBuild (products : List Product) (build : ParsedBuild) : BuildAnalysis :=
  analyzeFromMap products (matchedMap build.components)

/-- `calculateGrade`: letter grade from the overall score. -/
def calculateGrade (score : Int) : String :=
  if 95 ≤ score then "S"
  else if 85 ≤ score then "A"
  else if 70 ≤ score then "B"
  else if 55 ≤ score then "C"
  else if 40 ≤ score then "D"
  else "F"

/-! ### A small backtracking regex engine

The source detects categories, budgets and table rows with JS regexes.
Every quantifier in those patterns ranges over a single character class,
so the engine needs: literals (case-insensitive, as all letter literals
occur under the `/i` flag), character classes, sequencing, ordered
alternation, greedy character-class star, capture groups, word boundary
and anchors.  Matching follows the JS backtracking order: alternatives
left to right, quantifiers longest first, first match position wins. -/

/-- Regex abstract syntax. -/
inductive RE where
  | eps
  | lit (c : Char)
  | cls (f : Char → Bool)
  | seq (a b : RE)
  | alt (a b : RE)
  | starCls (f : Char → Bool)
  | group (n : Nat) (a : RE)
  | bTok
  | bos
  | eos

/-- Capture store; the most recent entry for an index wins. -/
def Caps := List (Nat × List Char)

/-- Record a capture. -/
def capSet (caps : Caps) (n : Nat) (v : List Char) : Caps := (n, v) :: caps

/-- Look up a capture. -/
def capGet (caps : Caps) (n : Nat) : Option (List Char) :=
  ((caps : List (Nat × List Char)).find? (fun e => e.1 = n)).map (·.2)

/-- JS `\w`. -/
def isWordChar (c : Char) : Bool := c.isAlpha || c.isDigit || c = '_'

/-- JS `\s` (the whitespace characters that can occur in this app's input). -/
def isSpaceChar (c : Char) : Bool :=
  c = ' ' ∨ c = '\t' ∨ c = '\n' ∨ c = '\r' ∨ c = '\x0b' ∨ c = '\x0c'

/-- JS `\d`. -/
def isDigitChar (c : Char) : Bool := c.isDigit

/-- Word boundary between the previous character and the rest. -/
def boundaryOK (pc : Option Char) (s : List Char) : Bool :=
  (match pc with | some c => isWordChar c | none => false) ≠
  (match s with | c :: _ => isWordChar c | [] => false)

/-- Give back characters of a greedy run one at a time, longest first.
`rrun` is the consumed run reversed; `rest` the remaining input. -/
def shrinkRun (k : List Char → Option Char → Caps → Option ρ) (caps : Caps)
    (pc : Option Char) : List Char → List Char → Option ρ
  | [], rest => k rest pc caps
  | c :: rs, rest => (k rest (some c) caps) <|> shrinkRun k caps pc rs (c :: rest)

/-- The backtracking matcher, in continuation-passing style.  `pc` is the
character just before the current position (for `\b`/`^`). -/
def matRE : RE → List Char → Option Char → Caps →
    (List Char → Option Char → Caps → Option ρ) → Option ρ
  | .eps, s, pc, caps, k => k s pc caps
  | .lit c, s, _, caps, k =>
    match s with
    | [] => none
    | x :: xs => if x.toLower = c then k xs (some x) caps else none
  | .cls f, s, _, caps, k =>
    match s with
    | [] => none
    | x :: xs => if f x then k xs (some x) caps else none
  | .seq a b, s, pc, caps, k =>
    matRE a s pc caps (fun s₁ pc₁ caps₁ => matRE b s₁ pc₁ caps₁ k)
  | .alt a b, s, pc, caps, k => (matRE a s pc caps k) <|> (matRE b s pc caps k)
  | .starCls f, s, pc, caps, k =>
    let run := s.takeWhile f
    shrinkRun k caps pc run.reverse (s.drop run.length)
  | .group n a, s, pc, caps, k =>
    matRE a s pc caps (fun s₁ pc₁ caps₁ =>
      k s₁ pc₁ (capSet caps₁ n (s.take (s.length - s₁.length))))
  | .bTok, s, pc, caps, k => if boundaryOK pc s then k s pc caps else none
  | .bos, s, pc, caps, k => if pc.isNone then k s pc caps else none
  | .eos, s, pc, caps, k => if s.isEmpty then k s pc caps else none

/-- Scan for the first matching position; returns the matched characters,
the captures, the remaining input and the character before it. -/
def reSearch (re : RE) : List Char → Option Char →
    Option (List Char × Caps × List Char × Option Char)
  | s, pc =>
    match matRE re s pc []
      (fun s₁ pc₁ caps => some (s.take (s.length - s₁.length), caps, s₁, pc₁)) with
    | some r => some r
    | none =>
      match s with
      | [] => none
      | c :: cs => reSearch re cs (some c)

/-- JS `re.test(s)`. -/
def reTest (re : RE) (s : String) : Bool := (reSearch re s.data none).isSome

/-- JS `s.match(re)` (non-global): match text and captures. -/
def reFirst (re : RE) (s : String) : Option (List Char × Caps) :=
  (reSearch re s.data none).map (fun r => (r.1, r.2.1))

/-- One step list for `matchAll`; fuel bounds the number of matches. -/
def reMatchAllAux (re : RE) : Nat → List Char → Option Char → List (List Char × Caps)
  | 0, _, _ => []
  | fuel + 1, s, pc =>
    match reSearch re s pc with
    | none => []
    | some (m, caps, rest, pc₁) =>
      (m, caps) :: (if m.isEmpty then [] else reMatchAllAux re fuel rest pc₁)

/-- JS `s.match(/…/g)`: all (non-overlapping, nonempty) matches. -/
def reMatchAll (re : RE) (s : String) : List (List Char × Caps) :=
  reMatchAllAux re (s.data.length + 1) s.data none

/-- Sequence a list of regexes. -/
def rcat (l : List RE) : RE := l.foldr .seq .eps

/-- A literal word (to be given lower-case; matching is case-insensitive). -/
def rlit (s : String) : RE := rcat (s.data.map .lit)

/-- Greedy `?`. -/
def ropt (a : RE) : RE := .alt a .eps

/-- Greedy `+` over a character class. -/
def rplus (f : Char → Bool) : RE := .seq (.cls f) (.starCls f)

/-- Bounded repetition `{n}` of a character class. -/
def rrep (f : Char → Bool) (n : Nat) : RE := rcat (List.replicate n (.cls f))

/-- `{lo,hi}` of a character class (greedy). -/
def rrepRange (f : Char → Bool) (lo hi : Nat) : RE :=
  .seq (rrep f lo) (rcat (List.replicate (hi - lo) (ropt (.cls f))))

/-! ### Budget detection and build-query detection (`search.ts`) -/

/-- `String.prototype.toLowerCase` (basic-latin, as in `Char.toLower`). -/
def toLowerStr (s : String) : String := ⟨s.data.map Char.toLower⟩

/-- The class `[\d,]`. -/
def isDigitComma (c : Char) : Bool := c.isDigit || c = ','

/-- The budget regex `/(?:rs\.?|inr|₹)?\s*([\d,]+)\s*(k)?\b/i`. -/
def budgetRE : RE := rcat [
  ropt (.alt (rcat [.lit 'r', .lit 's', ropt (.lit '.')])
             (.alt (rlit "inr") (.lit '₹'))),
  .starCls isSpaceChar,
  .group 1 (rplus isDigitComma),
  .starCls isSpaceChar,
  ropt (.group 2 (.lit 'k')),
  .bTok]

/-- The digits-and-commas capture of the first budget match, parsed:
`parseInt(m[1].replace(/,/g, ""))` (none when that is `NaN`), together
with whether the `k` group matched. -/
def budgetMatchValue (queryLower : String) : Option (Nat × Bool) :=
  match reFirst budgetRE queryLower with
  | none => none
  | some (_, caps) =>
    let run := (capGet caps 1).getD []
    match run.filter (fun c => c ≠ ',') with
    | [] => none
    | ds => some (natOfDigits ds, (capGet caps 2).isSome)

/-- `parseBudgetFromQuery`: budget from the first match, multiplied by
1000 when the `k` suffix matched or the value is at most 999. -/
def parseBudgetFromQuery (query : String) : Option Nat :=
  match budgetMatchValue (toLowerStr query) with
  | none => none
  | some (v, kf) => some (if kf ∨ v ≤ 999 then v * 1000 else v)

/-- The build-indicator vocabulary. -/
def buildIndicators : List String :=
  ["pc", "build", "computer", "rig", "setup", "gaming pc", "workstation", "gaming"]

/-- `isBuildQuery`: an indicator word occurs, or a budget was detected. -/
def isBuildQuery (query : String) : Bool :=
  let ql := toLowerStr query
  (buildIndicators.any (fun t => listInfix t.data ql.data)) ||
    (parseBudgetFromQuery ql).isSome

/-! ### Candidate ranking (`optimizeResultsForQuery` and helpers) -/

/-- The ranker's required categories, in its fixed order. -/
def BUILD_CATEGORIES : List String :=
  ["CPU", "GPU", "Motherboard", "RAM", "Storage", "PSU", "Case", "CPU Cooler"]

/-- The deduplication key `category|normalized_name‖name.toLowerCase()|price`. -/
def dedupeKey (p : Product) : String × String × Nat :=
  (p.category,
   (if p.normalized_name = "" then toLowerStr p.name else p.normalized_name),
   p.price)

/-- `dedupeProducts`: keep the first occurrence of each key. -/
def dedupeProducts (l : List Product) : List Product :=
  (l.foldl
    (fun (acc : List Product × List (String × String × Nat)) p =>
      let key := dedupeKey p
      if acc.2.contains key then acc else (p :: acc.1, key :: acc.2))
    ([], [])).1.reverse

/-- `categoryBudgetTarget`: the fixed budget share of a category. -/
def categoryBudgetTarget (category : String) (budget : Nat) : ℚ :=
  match category with
  | "GPU" => budget * 0.35
  | "CPU" => budget * 0.25
  | "Motherboard" => budget * 0.15
  | "RAM" => budget * 0.10
  | "Storage" => budget * 0.08
  | "PSU" => budget * 0.08
  | "Case" => budget * 0.08
  | "CPU Cooler" => budget * 0.05
  | _ => budget * 0.10

/-- The JS truthiness test `!budget` (null or zero). -/
def hasBudgetVal : Option Nat → Bool
  | none => false
  | some b => b ≠ 0

/-- `pickCategoryFallback`: among in-stock items of the category, the one
closest to the category target within 1.5× the target, else the cheapest
overall; without a (truthy) budget, the cheapest overall. -/
def pickCategoryFallback (products : List Product) (category : String)
    (budget : Option Nat) : Option Product :=
  let candidates := products.filter (fun p => p.category = category ∧ inStock p)
  if candidates.isEmpty then none
  else if ¬ hasBudgetVal budget then firstMinBy candidates
  else
    let target := categoryBudgetTarget category (budget.getD 0)
    let upperBound := target * 1.5
    let nearTarget := candidates.filter (fun p => (p.price : ℚ) ≤ upperBound)
    match firstMinByKey (fun p => |(p.price : ℚ) - target|) nearTarget with
    | some p => some p
    | none => firstMinBy candidates

/-- One iteration of the category loop of `optimizeResultsForQuery`: fill
the slot from the deduped initial results, else from the catalog fallback. -/
def balancedStep (products deduped : List Product) (budget : Option Nat)
    (st : List Product × List String) (category : String) :
    List Product × List String :=
  let fromInitial :=
    deduped.find? (fun p => p.category = category ∧ ¬ st.2.contains p.id)
  match fromInitial <|> pickCategoryFallback products category budget with
  | none => st
  | some c => if st.2.contains c.id then st else (st.1 ++ [c], c.id :: st.2)

/-- The category loop of `optimizeResultsForQuery`: one slot per required
category.  Returns the selection and the selected-id set. -/
def balancedSelection (products : List Product) (deduped : List Product)
    (budget : Option Nat) : List Product × List String :=
  BUILD_CATEGORIES.foldl (balancedStep products deduped budget) ([], [])

/-- The top-up loop: append remaining deduped items until the limit. -/
def topUp (limit : Nat) : List Product → List Product × List String →
    List Product × List String
  | [], st => st
  | p :: rest, st =>
    if limit ≤ st.1.length then st
    else if st.2.contains p.id then topUp limit rest st
    else topUp limit rest (st.1 ++ [p], p.id :: st.2)

/-- `optimizeResultsForQuery`: dedupe; non-build queries get the first
`limit` items; build queries get the balanced selection topped up with
remaining items, truncated to `limit`. -/
def optimizeResultsForQuery (products : List Product) (query : String)
    (initialResults : List Product) (limit : Nat) : List Product :=
  let deduped := dedupeProducts initialResults
  if ¬ isBuildQuery query then deduped.take limit
  else
    let budget := parseBudgetFromQuery query
    (topUp limit deduped (balancedSelection products deduped budget)).1.take limit

/-! ### Cosine similarity (`search.ts`), over real-valued vectors -/

/-- The dot-product loop. -/
def dotList (a b : List ℝ) : ℝ := (List.zipWith (· * ·) a b).sum

/-- The squared-norm loop. -/
def normSqList (a : List ℝ) : ℝ := (a.map (fun x => x * x)).sum

/-- `cosineSimilarity`: 0 on length mismatch or zero magnitude, else the
dot product over the product of magnitudes. -/
noncomputable def cosineSimilarity (a b : List ℝ) : ℝ :=
  if a.length ≠ b.length then 0
  else
    let magnitude := Real.sqrt (normSqList a) * Real.sqrt (normSqList b)
    if magnitude = 0 then 0 else dotList a b / magnitude

/-! ### The component extractor (`build-parser.ts`) -/

/-- Ordered alternation of a nonempty pattern list. -/
def ralts : List RE → RE
  | [] => .eps
  | [a] => a
  | a :: rest => .alt a (ralts rest)

/-- `[a-z]` under the `/i` flag. -/
def isAZci (c : Char) : Bool := ('a' ≤ c.toLower ∧ c.toLower ≤ 'z')

/-- `[3579]`. -/
def is3579 (c : Char) : Bool := c = '3' ∨ c = '5' ∨ c = '7' ∨ c = '9'

/-- `[45]`, `[456]`, `[56]`, `[67]`, `[57]`. -/
def is45 (c : Char) : Bool := c = '4' ∨ c = '5'

def is456 (c : Char) : Bool := c = '4' ∨ c = '5' ∨ c = '6'

def is56 (c : Char) : Bool := c = '5' ∨ c = '6'

def is67 (c : Char) : Bool := c = '6' ∨ c = '7'

def is57 (c : Char) : Bool := c = '5' ∨ c = '7'

/-- `[-\s]`. -/
def isDashSpace (c : Char) : Bool := c = '-' ∨ isSpaceChar c

/-- `CATEGORY_PATTERNS`, in source (insertion) order.  Capture groups of
these test-only patterns are omitted: they never affect whether a pattern
matches nor what `match[0]` is. -/
def CATEGORY_PATTERNS : List (String × List RE) := [
  ("GPU", [
    rcat [.bTok, ralts [rlit "rtx", rlit "gtx", rlit "rx", rlit "radeon",
            rlit "geforce", rlit "nvidia", rlit "amd"],
          .starCls isSpaceChar, rrepRange isDigitChar 3 4, .starCls isSpaceChar,
          ropt (ralts [rlit "ti", rlit "xt", rlit "super", rlit "s"]), .bTok],
    rcat [.bTok, rlit "graphic", ropt (.lit 's'), .starCls isSpaceChar,
          rlit "card", .bTok],
    rcat [.bTok, rlit "gpu", .bTok]]),
  ("CPU", [
    rcat [.bTok, ralts [rlit "ryzen", rlit "intel", rlit "core"],
          .starCls isSpaceChar, .alt (.seq (.lit 'i') (.cls is3579)) (.cls is3579),
          .starCls isSpaceChar, ropt (.cls isDashSpace), rrepRange isDigitChar 4 5,
          .starCls isAZci],
    rcat [.bTok, .lit 'i', .cls is3579, .starCls isSpaceChar,
          ropt (.cls isDashSpace), rrepRange isDigitChar 4 5, .starCls isAZci],
    rcat [.bTok, rlit "processor", .bTok],
    rcat [.bTok, rlit "cpu", .bTok]]),
  ("RAM", [
    rcat [.bTok, rplus isDigitChar, .starCls isSpaceChar, rlit "gb",
          .starCls isSpaceChar, ropt (rcat [rlit "ddr", .cls is45]),
          .starCls isSpaceChar, ropt (rlit "ram"), .bTok],
    rcat [.bTok, rlit "ddr", .cls is45, .starCls isSpaceChar,
          rplus isDigitChar, .starCls isSpaceChar, rlit "gb", .bTok],
    rcat [.bTok, rlit "ram", .bTok],
    rcat [.bTok, rlit "memory", .bTok],
    rcat [.bTok, rlit "trident", .bTok],
    rcat [.bTok, rlit "vengeance", .bTok]]),
  ("Motherboard", [
    rcat [.bTok, ralts [
            rcat [.lit 'b', .cls is456, .cls is56, .lit '0'],
            rcat [.lit 'x', .cls is56, rlit "70"],
            rcat [.lit 'z', .cls is67, rlit "90"],
            rcat [.lit 'h', .cls is67, rlit "10"]], .bTok],
    rcat [.bTok, ralts [rlit "motherboard", rlit "mobo", rlit "mainboard"], .bTok],
    rcat [.bTok, rlit "tomahawk", .bTok],
    rcat [.bTok, rlit "strix", .bTok]]),
  ("PSU", [
    rcat [.bTok, rrepRange isDigitChar 3 4, .starCls isSpaceChar, .lit 'w',
          ropt (rlit "att"), .bTok],
    rcat [.bTok, ralts [rlit "psu",
            rcat [rlit "power", .starCls isSpaceChar, rlit "supply"]], .bTok],
    rcat [.bTok, ralts [rlit "gold", rlit "platinum", rlit "bronze", rlit "titanium"],
          .starCls isSpaceChar, ropt (ralts [rlit "rated", rlit "certified"]), .bTok],
    rcat [.bTok, rlit "rm", rrepRange isDigitChar 3 4, .bTok],
    rcat [.bTok, rlit "corsair", rplus isSpaceChar, rlit "rm"]]),
  ("Case", [
    rcat [.bTok, ralts [rlit "case", rlit "chassis", rlit "cabinet", rlit "tower"], .bTok],
    rcat [.bTok, ralts [rlit "lancool", rlit "meshify",
            rcat [.lit 'h', .cls is57, rlit "10"], rlit "4000d", rlit "5000d"], .bTok],
    rcat [.bTok, ralts [rcat [rlit "mid", .starCls isSpaceChar, rlit "tower"],
            rcat [rlit "full", .starCls isSpaceChar, rlit "tower"],
            rcat [rlit "atx", .starCls isSpaceChar, rlit "case"]], .bTok]]),
  ("Storage", [
    rcat [.bTok, ralts [rlit "ssd", rlit "nvme", rlit "hdd",
            rcat [rlit "hard", .starCls isSpaceChar, rlit "drive"]], .bTok],
    rcat [.bTok, ralts [rlit "sn770", rcat [rlit "980", .starCls isSpaceChar, rlit "pro"],
            rcat [rlit "970", .starCls isSpaceChar, rlit "evo"],
            rcat [rlit "wd", .starCls isSpaceChar, rlit "black"]], .bTok],
    rcat [.bTok, rplus isDigitChar, .starCls isSpaceChar, ralts [rlit "tb", rlit "gb"],
          .starCls isSpaceChar, ropt (ralts [rlit "ssd", rlit "nvme", rlit "storage"]),
          .bTok]]),
  ("CPU Cooler", [
    rcat [.bTok, ralts [rlit "cooler", rlit "cooling", rlit "heatsink", rlit "aio"], .bTok],
    rcat [.bTok, ralts [rlit "ak620", rlit "nh-d15",
            rcat [rlit "hyper", .starCls isSpaceChar, rlit "212"],
            rcat [rlit "dark", .starCls isSpaceChar, rlit "rock"]], .bTok],
    rcat [.bTok, rrepRange isDigitChar 2 3, rlit "mm", .starCls isSpaceChar,
          ralts [rlit "aio", rlit "radiator"], .bTok]])]

/-- JS `String.prototype.trim` (on the whitespace of this app's input). -/
def trimStr (s : String) : String :=
  ⟨((s.data.dropWhile isSpaceChar).reverse.dropWhile isSpaceChar).reverse⟩

mutual

/-- `split` on runs of separator characters: accumulate the current piece. -/
def jsSplitGo (f : Char → Bool) (cur : List Char) : List Char → List (List Char)
  | [] => [cur.reverse]
  | c :: cs => if f c then cur.reverse :: jsSplitSkip f cs else jsSplitGo f (c :: cur) cs

/-- `split` on runs of separator characters: inside a separator run. -/
def jsSplitSkip (f : Char → Bool) : List Char → List (List Char)
  | [] => [[]]
  | c :: cs => if f c then jsSplitSkip f cs else jsSplitGo f [c] cs

end

/-- JS `s.split(/\s+/)`. -/
def jsSplitWS (s : String) : List (List Char) := jsSplitGo isSpaceChar [] s.data

/-- JS `s.split(c)` on a single character. -/
def splitChar (sep : Char) : List Char → List (List Char)
  | [] => [[]]
  | c :: cs =>
    let r := splitChar sep cs
    if c = sep then [] :: r
    else match r with
      | h :: t => (c :: h) :: t
      | [] => [[c]]

/-- `calculateMatchScore`: best, over normalized name / name / brand, of the
fraction of that term's words (length > 2) occurring in the text. -/
def calculateMatchScore (text : String) (product : Product) : ℚ :=
  let searchTerms := [product.normalized_name, toLowerStr product.name,
    toLowerStr product.brand]
  searchTerms.foldl
    (fun maxScore term =>
      let termWords := jsSplitWS term
      let nMatches := termWords.countP
        (fun w => decide (2 < w.length) && listInfix w text.data)
      let score : ℚ :=
        if termWords.length ≠ 0 then (nMatches : ℚ) / (termWords.length : ℚ) else 0
      max maxScore score)
    0

/-- `findBestMatch`: best-scoring same-category item with score above 0.3. -/
def findBestMatch (products : List Product) (text : String) (category : String) :
    Option Product :=
  let textLower := toLowerStr text
  let categoryProducts :=
    products.filter (fun p => toLowerStr p.category = toLowerStr category)
  (categoryProducts.foldl
    (fun (acc : Option Product × ℚ) p =>
      let score := calculateMatchScore textLower p
      if acc.2 < score ∧ (0.3 : ℚ) < score then (some p, score) else acc)
    (none, 0)).1

/-- `calculateConfidence`: 0.95 full normalized name, 0.8 brand, else 0.6. -/
def calculateConfidence (text : String) (product : Product) : ℚ :=
  let textLower := toLowerStr text
  if listInfix (toLowerStr product.normalized_name).data textLower.data then 0.95
  else if listInfix (toLowerStr product.brand).data textLower.data then 0.8
  else 0.6

/-- `/type\s*\|\s*item/i`. -/
def typeItemRE : RE :=
  rcat [rlit "type", .starCls isSpaceChar, .lit '|', .starCls isSpaceChar, rlit "item"]

/-- `/\|\s*pcpartpicker/i`. -/
def pcppRE : RE := rcat [.lit '|', .starCls isSpaceChar, rlit "pcpartpicker"]

/-- `/\*\*[A-Z]+\*\*/i`. -/
def mdBoldRE : RE := rcat [.lit '*', .lit '*', rplus isAZci, .lit '*', .lit '*']

/-- `isPCPartPickerFormat`. -/
def isPCPartPickerFormat (input : String) : Bool :=
  reTest typeItemRE input || reTest pcppRE input ||
    listInfix "| https://".data input.data || reTest mdBoldRE input

/-- `/type\s*\|/i` (table-header detection). -/
def typeBarRE : RE := rcat [rlit "type", .starCls isSpaceChar, .lit '|']

/-- `[^|*]`. -/
def notPipeStar (c : Char) : Bool := ¬(c = '|' ∨ c = '*')

/-- `[^\]|]`. -/
def notBracketPipe (c : Char) : Bool := ¬(c = ']' ∨ c = '|')

/-- The table-row regex `/\|\s*(?:\*\*)?([^|*]+)(?:\*\*)?\s*\|\s*\[?([^\]|]+)/`. -/
def tableRowRE : RE :=
  rcat [.lit '|', .starCls isSpaceChar, ropt (rlit "**"),
        .group 1 (rplus notPipeStar), ropt (rlit "**"), .starCls isSpaceChar,
        .lit '|', .starCls isSpaceChar, ropt (.lit '['),
        .group 2 (rplus notBracketPipe)]

/-- `[^:]`. -/
def notColon (c : Char) : Bool := c ≠ ':'

/-- JS `.` (anything but a line terminator). -/
def dotChar (c : Char) : Bool :=
  ¬(c = '\n' ∨ c = '\r' ∨ c = '\u2028' ∨ c = '\u2029')

/-- The `category: item` regex `/^([^:]+):\s*(.+)$/`. -/
def colonRE : RE :=
  rcat [.bos, .group 1 (rplus notColon), .lit ':', .starCls isSpaceChar,
        .group 2 (rplus dotChar), .eos]

/-- `mapPCPartPickerCategory`: the fixed synonym table. -/
def mapPCPartPickerCategory (category : String) : Option String :=
  match trimStr (toLowerStr category) with
  | "cpu" => some "CPU"
  | "processor" => some "CPU"
  | "gpu" => some "GPU"
  | "video card" => some "GPU"
  | "graphics card" => some "GPU"
  | "graphics" => some "GPU"
  | "motherboard" => some "Motherboard"
  | "mobo" => some "Motherboard"
  | "memory" => some "RAM"
  | "ram" => some "RAM"
  | "storage" => some "Storage"
  | "ssd" => some "Storage"
  | "hdd" => some "Storage"
  | "power supply" => some "PSU"
  | "psu" => some "PSU"
  | "case" => some "Case"
  | "tower" => some "Case"
  | "cabinet" => some "Case"
  | "chassis" => some "Case"
  | "cpu cooler" => some "CPU Cooler"
  | "cooler" => some "CPU Cooler"
  | "cooling" => some "CPU Cooler"
  | _ => none

/-- `replace(/\*\*/g, "")`: drop `**` pairs left to right. -/
def removeStarStar : List Char → List Char
  | [] => []
  | '*' :: '*' :: rest => removeStarStar rest
  | c :: rest => c :: removeStarStar rest

/-- `replace(/\[|\]/g, "")`. -/
def removeBrackets (l : List Char) : List Char :=
  l.filter (fun c => ¬(c = '[' ∨ c = ']'))

/-- `parsePCPartPickerFormat`: per line, skip headers, parse a markdown
table row, else a `category: item` line. -/
def parsePCPartPickerFormat (products : List Product) (input : String) :
    ParsedBuild :=
  let lines := ((splitChar '\n' input.data).map
    (fun l => (⟨l⟩ : String))).filter (fun l => trimStr l ≠ "")
  let st := lines.foldl
    (fun (st : List ParsedComponent × List String) line =>
      if reTest typeBarRE line ∨ listInfix "---".data line.data ∨
          listInfix "===".data line.data then st
      else
        match reFirst tableRowRE line with
        | some (_, caps) =>
          let category : String := ⟨(capGet caps 1).getD []⟩
          let itemText : String := ⟨(capGet caps 2).getD []⟩
          let cleanCategory : String := ⟨removeStarStar (trimStr category).data⟩
          let cleanItem : String := ⟨removeBrackets (trimStr itemText).data⟩
          (match mapPCPartPickerCategory cleanCategory with
           | some mapped =>
             let matched := findBestMatch products cleanItem mapped
             (st.1 ++ [{ category := mapped
                         rawText := cleanItem
                         matchedProduct := matched
                         confidence := (match matched with
                           | some p => calculateConfidence cleanItem p
                           | none => 0.4) }], st.2)
           | none => (st.1, st.2 ++ [line]))
        | none =>
          match reFirst colonRE line with
          | some (_, caps) =>
            let category : String := ⟨(capGet caps 1).getD []⟩
            let itemText : String := ⟨(capGet caps 2).getD []⟩
            (match mapPCPartPickerCategory (trimStr category) with
             | some mapped =>
               let matched := findBestMatch products (trimStr itemText) mapped
               (st.1 ++ [{ category := mapped
                           rawText := trimStr itemText
                           matchedProduct := matched
                           confidence := (match matched with
                             | some p => calculateConfidence itemText p
                             | none => 0.4) }], st.2)
             | none => st)
          | none => st)
    ([], [])
  { components := st.1, unmatchedText := st.2 }

/-- `[^\s\n"'<>]` of the marketplace-URL regex. -/
def urlTailChar (c : Char) : Bool :=
  ¬(isSpaceChar c ∨ c = '"' ∨ c = '\'' ∨ c = '<' ∨ c = '>')

/-- `/https?:\/\/(www\.)?(amazon\.(in|com)|flipkart\.com)[^\s\n"'<>]+/gi`. -/
def urlRE : RE :=
  rcat [rlit "http", ropt (.lit 's'), rlit "://", ropt (rlit "www."),
        .alt (rcat [rlit "amazon.", .alt (rlit "in") (rlit "com")])
             (rlit "flipkart.com"),
        rplus urlTailChar]

/-- Characters after the `://` of a URL. -/
def afterScheme : List Char → List Char
  | ':' :: '/' :: '/' :: rest => rest
  | _ :: cs => afterScheme cs
  | [] => []

/-- `new URL(u).hostname` for the http(s) URLs this app matches. -/
def hostnameOf (url : String) : String :=
  ⟨((afterScheme url.data).takeWhile
      (fun c => ¬(c = '/' ∨ c = ':' ∨ c = '?' ∨ c = '#'))).map Char.toLower⟩

/-- `new URL(u).pathname` for the http(s) URLs this app matches. -/
def pathnameOf (url : String) : String :=
  let rest := (afterScheme url.data).dropWhile (fun c => ¬(c = '/' ∨ c = '?' ∨ c = '#'))
  match rest with
  | '/' :: _ => ⟨rest.takeWhile (fun c => ¬(c = '?' ∨ c = '#'))⟩
  | _ => "/"

/-- Replace every dash with a space (the `replace` with a global dash regex). -/
def replaceDash (s : String) : String :=
  ⟨s.data.map (fun c => if c = '-' then ' ' else c)⟩

/-- The category detection shared by `parseComponent` and
`parseProductURL`: the first category (in `CATEGORY_PATTERNS` order) one
of whose patterns matches. -/
def detectCategory (text : String) : Option String :=
  CATEGORY_PATTERNS.findSome?
    (fun e => if e.2.any (fun re => reTest re text) then some e.1 else none)

/-- `parseProductURL`: derive a product-name fragment from the URL path,
then detect its category and resolve it. -/
def parseProductURL (products : List Product) (url : String) :
    Option ParsedComponent :=
  let host := hostnameOf url
  let pathParts := (splitChar '/' (pathnameOf url).data).map (fun l => (⟨l⟩ : String))
  let amazonName : String :=
    if listInfix "amazon".data host.data then
      match pathParts.findIdx? (fun p => p = "dp" ∨ p = "gp") with
      | some i =>
        if 0 < i ∧ pathParts.getD (i - 1) "" ≠ "" then
          replaceDash (pathParts.getD (i - 1) "")
        else
          match pathParts.find? (fun p => 10 < p.length ∧ ¬ p.startsWith "B0") with
          | some np => replaceDash np
          | none => ""
      | none =>
        match pathParts.find? (fun p => 10 < p.length ∧ ¬ p.startsWith "B0") with
        | some np => replaceDash np
        | none => ""
    else ""
  let productName : String :=
    if listInfix "flipkart".data host.data then
      match pathParts.find? (fun p => 5 < p.length ∧ ¬ p.startsWith "p/" ∧ p ≠ "p") with
      | some np => replaceDash np
      | none => amazonName
    else amazonName
  if productName = "" then none
  else
    match detectCategory productName with
    | none => none
    | some category =>
      let matched := findBestMatch products productName category
      some { category := category
             rawText := productName
             matchedProduct := matched
             confidence := (match matched with
               | some p => calculateConfidence productName p
               | none => 0.3)
             sourceURL := some url }

/-- `extractComponentsFromURLs`: every marketplace URL that parses. -/
def extractComponentsFromURLs (products : List Product) (text : String) :
    List ParsedComponent :=
  ((reMatchAll urlRE text).map (fun r => (⟨r.1⟩ : String))).foldr
    (fun url acc =>
      match parseProductURL products url with
      | some c => c :: acc
      | none => acc)
    []

/-- `[₹$Rs\.]` under `/i`. -/
def priceMarkChar (c : Char) : Bool :=
  c.toLower = '₹' ∨ c.toLower = '$' ∨ c.toLower = 'r' ∨ c.toLower = 's' ∨
    c.toLower = '.'

/-- `/[₹$Rs\.]+\s*([\d,]+)/i`. -/
def priceRE : RE :=
  rcat [rplus priceMarkChar, .starCls isSpaceChar, .group 1 (rplus isDigitComma)]

/-- `parsePrice`: strip currency marks, commas and spaces, `parseInt`,
0 on NaN. -/
def parsePrice (priceStr : String) : Nat :=
  let cleaned := priceStr.data.filter
    (fun c => ¬(priceMarkChar c ∨ c = ',' ∨ isSpaceChar c))
  match cleaned.takeWhile Char.isDigit with
  | [] => 0
  | ds => natOfDigits ds

/-- `extractPriceFromText`. -/
def extractPriceFromText (text : String) : Nat :=
  match reFirst priceRE text with
  | some (_, caps) => parsePrice ⟨(capGet caps 1).getD []⟩
  | none => 0

/-- `parseComponent`: detect the category of one line, then resolve it. -/
def parseComponent (products : List Product) (text : String) :
    Option ParsedComponent :=
  (detectCategory text).map (fun category =>
    let matched := findBestMatch products text category
    { category := category
      rawText := text
      matchedProduct := matched
      confidence := (match matched with
        | some p => calculateConfidence text p
        | none => 0.3) })

/-- `extractComponentsFromText` (whole-input fallback): one component per
category whose patterns match somewhere, with `match[0]` as the raw text. -/
def extractComponentsFromText (products : List Product) (text : String) :
    List ParsedComponent :=
  CATEGORY_PATTERNS.foldl
    (fun comps e =>
      match e.2.findSome? (fun re => (reSearch re text.data none).map (fun r => r.1)) with
      | some m0 =>
        if comps.any (fun c => c.category = e.1) then comps
        else
          let matched := findBestMatch products text e.1
          comps ++ [{ category := e.1
                      rawText := (⟨m0⟩ : String)
                      matchedProduct := matched
                      confidence := (match matched with
                        | some p => calculateConfidence text p
                        | none => 0.3) }]
      | none => comps)
    []

/-- `/^https?:\/\//i`. -/
def startsHttpRE : RE := rcat [.bos, rlit "http", ropt (.lit 's'), rlit "://"]

/-- The split `input.split(/[\n,;]+/)` of `parseBuildList`. -/
def splitDelims (s : String) : List String :=
  (jsSplitGo (fun c => c = '\n' ∨ c = ',' ∨ c = ';') [] s.data).map (fun l => ⟨l⟩)

/-- One iteration of the line-by-line loop of `parseBuildList`: state is
(components, matched categories, unmatched text). -/
def lineStep (products : List Product)
    (st : List ParsedComponent × List String × List String) (line : String) :
    List ParsedComponent × List String × List String :=
  if reTest startsHttpRE (trimStr line) then st
  else
    match parseComponent products line with
    | some parsed =>
      if st.2.1.contains parsed.category then st
      else
        let parsed :=
          if parsed.matchedProduct.isNone then
            let lp := extractPriceFromText line
            if 0 < lp then { parsed with extractedPrice := some lp } else parsed
          else parsed
        (st.1 ++ [parsed], parsed.category :: st.2.1, st.2.2)
    | none => (st.1, st.2.1, st.2.2 ++ [line])

/-- The line-by-line loop of `parseBuildList`. -/
def lineLoop (products : List Product) (lines : List String)
    (start : List ParsedComponent × List String × List String) :
    List ParsedComponent × List String × List String :=
  lines.foldl (lineStep products) start

/-- `parseBuildList`: table path, else URL extraction plus line-by-line
parsing, with the whole-input fallback when nothing was found. -/
def parseBuildList (products : List Product) (input : String) : ParsedBuild :=
  let pcpp := parsePCPartPickerFormat products input
  if isPCPartPickerFormat input ∧ pcpp.components.length ≠ 0 then pcpp
  else
    let urlComponents := extractComponentsFromURLs products input
    let lines := (splitDelims input).map trimStr |>.filter (fun l => l ≠ "")
    let st := lineLoop products lines
      (urlComponents, urlComponents.map (·.category), [])
    let components :=
      if st.1.length = 0 ∧ trimStr input ≠ "" then
        extractComponentsFromText products input
      else st.1
    { components := components, unmatchedText := st.2.2 }

/-! ### Claim theorems -/

/-- Rank of a letter grade, better grades ranking higher (claim-side). -/
def gradeRank (g : String) : Nat :=
  match g with
  | "F" => 0
  | "D" => 1
  | "C" => 2
  | "B" => 3
  | "A" => 4
  | "S" => 5
  | _ => 0

/-- C9: the letter grade is S for scores ≥ 95, A on [85, 95), B on
[70, 85), C on [55, 70), D on [40, 55) and F below 40; consequently the
grade is monotone: a strictly smaller score never gets a better grade. -/
theorem calculateGrade_thresholds_mono (s : Int) :
    (95 ≤ s → calculateGrade s = "S") ∧
    (85 ≤ s ∧ s < 95 → calculateGrade s = "A") ∧
    (70 ≤ s ∧ s < 85 → calculateGrade s = "B") ∧
    (55 ≤ s ∧ s < 70 → calculateGrade s = "C") ∧
    (40 ≤ s ∧ s < 55 → calculateGrade s = "D") ∧
    (s < 40 → calculateGrade s = "F") ∧
    (∀ t : Int, s < t → gradeRank (calculateGrade s) ≤ gradeRank (calculateGrade t)) := by
  refine ⟨?_, ?_, ?_, ?_, ?_, ?_, ?_⟩
  · intro h; unfold calculateGrade; split_ifs <;> first | rfl | omega
  · intro h; unfold calculateGrade; split_ifs <;> first | rfl | omega
  · intro h; unfold calculateGrade; split_ifs <;> first | rfl | omega
  · intro h; unfold calculateGrade; split_ifs <;> first | rfl | omega
  · intro h; unfold calculateGrade; split_ifs <;> first | rfl | omega
  · intro h; unfold calculateGrade; split_ifs <;> first | rfl | omega
  · intro t ht
    unfold calculateGrade
    split_ifs <;> simp [gradeRank] <;> omega

/-- Witness for C9 at concrete scores. -/
theorem calculateGrade_thresholds_mono_witness :
    calculateGrade 100 = "S" ∧
      gradeRank (calculateGrade 50) ≤ gradeRank (calculateGrade 97) :=
  ⟨(calculateGrade_thresholds_mono 100).1 (by norm_num),
   (calculateGrade_thresholds_mono 50).2.2.2.2.2.2 97 (by norm_num)⟩

/-- Score fold: subtracting all penalties equals subtracting 25 per
critical, 10 per warning and 5 per info issue. -/
theorem foldl_sub_penalty (l : List AnalysisIssue) (s : Int) :
    l.foldl (fun s i => s - penalty i) s =
      s - (25 * (l.countP (fun i => decide (i.severity = Severity.critical)) : Int) +
           10 * (l.countP (fun i => decide (i.severity = Severity.warning)) : Int) +
           5 * (l.countP (fun i => decide (i.severity = Severity.info)) : Int)) := by
  induction l generalizing s with
  | nil => simp
  | cons i t ih =>
    rw [List.foldl_cons, ih]
    rw [List.countP_cons, List.countP_cons, List.countP_cons]
    cases h : i.severity <;> simp [penalty, h] <;> push_cast <;> ring

/-- C8: the overall score is 100 minus 25 per critical, 10 per warning and
5 per info issue of the same analysis, floored at 0. -/
theorem analyzeBuild_score_formula (products : List Product) (build : ParsedBuild) :
    (analyzeBuild products build).overallScore =
      max 0 (100 -
        (25 * ((analyzeBuild products build).issues.countP
            (fun i => decide (i.severity = Severity.critical)) : Int) +
         10 * ((analyzeBuild products build).issues.countP
            (fun i => decide (i.severity = Severity.warning)) : Int) +
         5 * ((analyzeBuild products build).issues.countP
            (fun i => decide (i.severity = Severity.info)) : Int))) := by
  simp only [analyzeBuild, analyzeFromMap]
  rw [foldl_sub_penalty]

/-- `mapSet` then `mapGet`: the set key reads back the new value, other
keys are unchanged. -/
theorem mapGet_cons (a : String) (b : Product) (m : List (String × Product))
    (cat : String) :
    mapGet ((a, b) :: m) cat = if a = cat then some b else mapGet m cat := by
  by_cases h : a = cat <;> simp [mapGet, List.find?, h]

/-- `mapSet` then `mapGet`: the set key reads back the new value, other
keys are unchanged. -/
theorem mapGet_mapSet (m : List (String × Product)) (k : String) (v : Product)
    (cat : String) :
    mapGet (mapSet m k v) cat = if cat = k then some v else mapGet m cat := by
  induction m with
  | nil =>
    by_cases h : cat = k
    · subst h; simp [mapSet, mapGet_cons, mapGet]
    · have h2 : ¬ k = cat := fun hh => h hh.symm
      simp [mapSet, mapGet_cons, mapGet, h, h2]
  | cons e rest ih =>
    obtain ⟨k₁, v₁⟩ := e
    by_cases hk : k₁ = k
    · subst hk
      by_cases h : cat = k₁
      · subst h; simp [mapSet, mapGet_cons]
      · have h2 : ¬ k₁ = cat := fun hh => h hh.symm
        simp [mapSet, mapGet_cons, h, h2]
    · simp only [mapSet, if_neg hk, mapGet_cons]
      by_cases h1 : k₁ = cat
      · have hck : ¬ cat = k := fun hh => hk (h1.trans hh)
        simp [h1, hck]
      · simp [h1, ih]

/-- The last resolved component of a category (claim-side). -/
def lastResolvedProduct (comps : List ParsedComponent) (cat : String) :
    Option Product :=
  (comps.filterMap
    (fun c => if c.category = cat then c.matchedProduct else none)).getLast?

/-- The matched-by-category map keeps, per category, the product of the
last component of that category carrying a resolved product. -/
theorem matchedMap_lookup (comps : List ParsedComponent) (cat : String) :
    mapGet (matchedMap comps) cat = lastResolvedProduct comps cat := by
  induction comps using List.reverseRecOn with
  | nil => simp [matchedMap, lastResolvedProduct, mapGet]
  | append_singleton comps c ih =>
    have hstep : matchedMap (comps ++ [c]) =
        (match c.matchedProduct with
         | some p => mapSet (matchedMap comps) c.category p
         | none => matchedMap comps) := by
      simp [matchedMap, List.foldl_append]
    rw [hstep]
    unfold lastResolvedProduct
    rw [List.filterMap_append]
    cases hm : c.matchedProduct with
    | none =>
      have : (List.filterMap
          (fun c => if c.category = cat then c.matchedProduct else none) [c]) = [] := by
        simp [List.filterMap, hm]
      rw [this, List.append_nil]
      exact ih
    | some p =>
      by_cases hc : c.category = cat
      · have : (List.filterMap
            (fun c => if c.category = cat then c.matchedProduct else none) [c]) = [p] := by
          simp [List.filterMap, hm, hc]
        rw [this, mapGet_mapSet, if_pos hc.symm]
        simp [List.getLast?_append]
      · have : (List.filterMap
            (fun c => if c.category = cat then c.matchedProduct else none) [c]) = [] := by
          simp [List.filterMap, hm, hc]
        rw [this, List.append_nil, mapGet_mapSet, if_neg (fun h => hc h.symm)]
        exact ih

/-- C6 (amended): `analyzeBuild` keeps one catalog item per category,
namely the item of the **last** component of that category carrying a
resolved catalog item; the analysis depends on the components only
through that map. -/
theorem analyzeBuild_last_resolved_wins :
    (∀ (comps : List ParsedComponent) (cat : String),
        mapGet (matchedMap comps) cat = lastResolvedProduct comps cat) ∧
    (∀ (products : List Product) (c₁ c₂ : List ParsedComponent)
        (u₁ u₂ : List String), matchedMap c₁ = matchedMap c₂ →
        analyzeBuild products ⟨c₁, u₁⟩ = analyzeBuild products ⟨c₂, u₂⟩) := by
  refine ⟨matchedMap_lookup, ?_⟩
  intro products c₁ c₂ u₁ u₂ h
  show analyzeFromMap products (matchedMap c₁) = analyzeFromMap products (matchedMap c₂)
  rw [h]

/-- A sample resolved CPU (test fixture). -/
def cpuP1 : Product :=
  { id := "cpu1", name := "Ryzen 5 5600", normalized_name := "ryzen 5 5600",
    category := "CPU", brand := "AMD", price := 30000 }

/-- A second, pricier sample resolved CPU (test fixture). -/
def cpuP2 : Product :=
  { id := "cpu2", name := "Ryzen 7 7700", normalized_name := "ryzen 7 7700",
    category := "CPU", brand := "AMD", price := 50000 }

/-- A resolved component wrapping a product (test fixture). -/
def compOf (p : Product) : ParsedComponent :=
  { category := p.category, rawText := p.name, matchedProduct := some p,
    confidence := 0.9 }

/-- Witness for C6 (amended) at a concrete two-CPU build. -/
theorem analyzeBuild_last_resolved_wins_witness :
    mapGet (matchedMap [compOf cpuP1, compOf cpuP2]) "CPU" =
        lastResolvedProduct [compOf cpuP1, compOf cpuP2] "CPU" ∧
      analyzeBuild [] ⟨[compOf cpuP1, compOf cpuP2], []⟩ =
        analyzeBuild [] ⟨[compOf cpuP2], []⟩ :=
  ⟨analyzeBuild_last_resolved_wins.1 [compOf cpuP1, compOf cpuP2] "CPU",
   analyzeBuild_last_resolved_wins.2 [] [compOf cpuP1, compOf cpuP2]
     [compOf cpuP2] [] [] (by decide)⟩

/-- C6 counterexample: with two resolved CPU components the analysis keeps
the second one (total price 50000), not the first (30000): the later
resolved component does affect the result, so "first resolved wins" fails. -/
theorem analyzeBuild_first_wins_counterexample :
    (analyzeBuild [] ⟨[compOf cpuP1, compOf cpuP2], []⟩).totalPrice = 50000 ∧
    (analyzeBuild [] ⟨[compOf cpuP1], []⟩).totalPrice = 30000 ∧
    analyzeBuild [] ⟨[compOf cpuP1, compOf cpuP2], []⟩ ≠
      analyzeBuild [] ⟨[compOf cpuP1], []⟩ := by
  refine ⟨by decide, by decide, by decide⟩

/-- Issues of the missing-categories rule carry no alternative. -/
theorem missingIssuesOf_shape (l : List String) :
    ∀ i ∈ missingIssuesOf l, i.itype = "missing" ∧ i.alternativeProduct = none := by
  intro i hi
  unfold missingIssuesOf at hi
  split at hi <;> simp_all

/-- Issues of the bottleneck rule carry no alternative. -/
theorem bottleneckIssuesOf_shape (a b : Option Product) :
    ∀ i ∈ bottleneckIssuesOf a b,
      i.itype = "bottleneck" ∧ i.alternativeProduct = none := by
  intro i hi
  cases a with
  | none => simp [bottleneckIssuesOf] at hi
  | some c =>
    cases b with
    | none => simp [bottleneckIssuesOf] at hi
    | some g =>
      simp only [bottleneckIssuesOf] at hi
      split at hi
      · simp_all
      · split at hi <;> simp_all

/-- Issues of the socket rule carry no alternative. -/
theorem socketIssuesOf_shape (a b : Option Product) :
    ∀ i ∈ socketIssuesOf a b,
      i.itype = "compatibility" ∧ i.alternativeProduct = none := by
  intro i hi
  cases a with
  | none => simp [socketIssuesOf] at hi
  | some c =>
    cases b with
    | none => simp [socketIssuesOf] at hi
    | some mb =>
      simp only [socketIssuesOf] at hi
      rcases hcs : c.specs.socket with _ | cs <;> rw [hcs] at hi <;>
        rcases hms : mb.specs.socket with _ | ms <;> rw [hms] at hi <;>
        first
          | simp_all
          | (split at hi <;> simp_all)

/-- Issues of the cooler-clearance rule carry no alternative. -/
theorem coolerClearanceIssuesOf_shape (a b : Option Product) :
    ∀ i ∈ coolerClearanceIssuesOf a b,
      i.itype = "compatibility" ∧ i.alternativeProduct = none := by
  intro i hi
  cases a with
  | none => simp [coolerClearanceIssuesOf] at hi
  | some co =>
    cases b with
    | none => simp [coolerClearanceIssuesOf] at hi
    | some ca =>
      simp only [coolerClearanceIssuesOf] at hi
      split at hi <;> simp_all

/-- Issues of the GPU-length rule carry no alternative. -/
theorem gpuClearanceIssuesOf_shape (a b : Option Product) :
    ∀ i ∈ gpuClearanceIssuesOf a b,
      i.itype = "compatibility" ∧ i.alternativeProduct = none := by
  intro i hi
  cases a with
  | none => simp [gpuClearanceIssuesOf] at hi
  | some g =>
    cases b with
    | none => simp [gpuClearanceIssuesOf] at hi
    | some ca =>
      simp only [gpuClearanceIssuesOf] at hi
      split at hi <;> simp_all

/-- Issues of the RAM-type rule carry no alternative. -/
theorem ramIssuesOf_shape (a b : Option Product) :
    ∀ i ∈ ramIssuesOf a b,
      i.itype = "ram_compatibility" ∧ i.alternativeProduct = none := by
  intro i hi
  cases a with
  | none => simp [ramIssuesOf] at hi
  | some r =>
    cases b with
    | none => simp [ramIssuesOf] at hi
    | some mb =>
      simp only [ramIssuesOf] at hi
      rcases hrt : detectDDRType r with _ | rt <;> rw [hrt] at hi <;>
        rcases hmt : detectMoboDDRSupport mb with _ | mt <;> rw [hmt] at hi <;>
        first
          | simp_all
          | (split at hi <;> simp_all)

/-- Issues of the platform rule carry no alternative. -/
theorem chipsetIssuesOf_shape (a b : Option Product) :
    ∀ i ∈ chipsetIssuesOf a b,
      i.itype = "chipset_mismatch" ∧ i.alternativeProduct = none := by
  intro i hi
  cases a with
  | none => simp [chipsetIssuesOf] at hi
  | some c =>
    cases b with
    | none => simp [chipsetIssuesOf] at hi
    | some mb =>
      simp only [chipsetIssuesOf] at hi
      rcases hcb : detectCPUBrand c with _ | cb <;> rw [hcb] at hi <;>
        rcases hmp : detectMoboPlatform mb with _ | mp <;> rw [hmp] at hi <;>
        first
          | simp_all
          | (split at hi <;> simp_all)

/-- PSU issues: exactly the record emitted under the wattage condition. -/
theorem psuIssuesOf_eq (products : List Product) (c g p : Product) :
    psuIssuesOf products (some c) (some g) (some p) =
      if ((p.specs.wattage.getD 0 : ℚ) < (estimateTotalTDP c g : ℚ) * 1.2) then
        [{ itype := "psu_warning", severity := .critical
           title := "⚠️ Insufficient PSU Wattage"
           description := "Your " ++ p.name ++ " (" ++ toString (p.specs.wattage.getD 0) ++
             "W) is risky for this build. Estimated system draw: ~" ++
             toString (estimateTotalTDP c g) ++ "W."
           suggestion := some ("Upgrade to at least " ++
             toString (recommendedWattage (estimateTotalTDP c g)) ++
             "W PSU for safe operation.")
           alternativeProduct :=
             findBetterPSU (recommendedWattage (estimateTotalTDP c g)) products }]
      else [] := rfl

/-- Cooling issues: exactly the record emitted for a hot CPU and no cooler. -/
theorem coolingIssuesOf_eq (products : List Product) (c : Product) :
    coolingIssuesOf products (some c) none =
      if 105 ≤ parseTDP c.specs.tdp 65 then
        [{ itype := "cooling_inadequate", severity := .warning
           title := "🌡️ Cooling May Be Insufficient"
           description := c.name ++ " has a TDP of " ++ toString (parseTDP c.specs.tdp 65) ++
             "W. Stock cooler may struggle under load."
           suggestion := some "Add an aftermarket cooler for better thermals and sustained performance."
           alternativeProduct := findAftermarketCooler (parseTDP c.specs.tdp 65) products }]
      else [] := rfl

/-- The inner fold of `firstMinBy` returns the start or a list element. -/
theorem foldlMin_mem (xs : List Product) (b : Product) :
    xs.foldl (fun b p => if p.price < b.price then p else b) b ∈ b :: xs := by
  induction xs generalizing b with
  | nil => simp
  | cons x xs ih =>
    rw [List.foldl_cons]
    by_cases hx : x.price < b.price
    · rw [if_pos hx]
      rcases List.mem_cons.mp (ih x) with h | h <;> simp [h]
    · rw [if_neg hx]
      rcases List.mem_cons.mp (ih b) with h | h <;> simp [h]

/-- The inner fold of `firstMinBy` attains the minimum. -/
theorem foldlMin_le (xs : List Product) (b : Product) :
    (xs.foldl (fun b p => if p.price < b.price then p else b) b).price ≤ b.price ∧
    ∀ q ∈ xs, (xs.foldl (fun b p => if p.price < b.price then p else b) b).price ≤ q.price := by
  induction xs generalizing b with
  | nil => simp
  | cons x xs ih =>
    rw [List.foldl_cons]
    obtain ⟨h1, h2⟩ := ih (if x.price < b.price then x else b)
    constructor
    · refine le_trans h1 ?_
      split <;> omega
    · intro q hq
      rcases List.mem_cons.mp hq with rfl | hq
      · refine le_trans h1 ?_
        split <;> omega
      · exact h2 q hq

/-- `firstMinBy` returns a list element. -/
theorem firstMinBy_mem {l : List Product} {p : Product}
    (h : firstMinBy l = some p) : p ∈ l := by
  cases l with
  | nil => simp [firstMinBy] at h
  | cons x xs =>
    simp only [firstMinBy, Option.some.injEq] at h
    subst h
    exact foldlMin_mem xs x

/-- `firstMinBy` attains the minimal price. -/
theorem firstMinBy_le {l : List Product} {p : Product}
    (h : firstMinBy l = some p) : ∀ q ∈ l, p.price ≤ q.price := by
  cases l with
  | nil => simp [firstMinBy] at h
  | cons x xs =>
    simp only [firstMinBy, Option.some.injEq] at h
    subst h
    intro q hq
    rcases List.mem_cons.mp hq with rfl | hq
    · exact (foldlMin_le xs q).1
    · exact (foldlMin_le xs x).2 q hq

/-- `firstMinBy` is none exactly on the empty list. -/
theorem firstMinBy_eq_none {l : List Product} : firstMinBy l = none ↔ l = [] := by
  cases l <;> simp [firstMinBy]

/-- The inner fold of `firstMinByKey` returns the start or a list element. -/
theorem foldlMinKey_mem (f : Product → ℚ) (xs : List Product) (b : Product) :
    xs.foldl (fun b p => if f p < f b then p else b) b ∈ b :: xs := by
  induction xs generalizing b with
  | nil => simp
  | cons x xs ih =>
    rw [List.foldl_cons]
    by_cases hx : f x < f b
    · rw [if_pos hx]
      rcases List.mem_cons.mp (ih x) with h | h <;> simp [h]
    · rw [if_neg hx]
      rcases List.mem_cons.mp (ih b) with h | h <;> simp [h]

/-- The inner fold of `firstMinByKey` attains the minimum key. -/
theorem foldlMinKey_le (f : Product → ℚ) (xs : List Product) (b : Product) :
    f (xs.foldl (fun b p => if f p < f b then p else b) b) ≤ f b ∧
    ∀ q ∈ xs, f (xs.foldl (fun b p => if f p < f b then p else b) b) ≤ f q := by
  induction xs generalizing b with
  | nil => simp
  | cons x xs ih =>
    rw [List.foldl_cons]
    obtain ⟨h1, h2⟩ := ih (if f x < f b then x else b)
    constructor
    · refine le_trans h1 ?_
      split
      · linarith
      · rfl
    · intro q hq
      rcases List.mem_cons.mp hq with rfl | hq
      · refine le_trans h1 ?_
        split
        · rfl
        · linarith
      · exact h2 q hq

/-- `firstMinByKey` returns a list element. -/
theorem firstMinByKey_mem {f : Product → ℚ} {l : List Product} {p : Product}
    (h : firstMinByKey f l = some p) : p ∈ l := by
  cases l with
  | nil => simp [firstMinByKey] at h
  | cons x xs =>
    simp only [firstMinByKey, Option.some.injEq] at h
    subst h
    exact foldlMinKey_mem f xs x

/-- `firstMinByKey` attains the minimal key. -/
theorem firstMinByKey_le {f : Product → ℚ} {l : List Product} {p : Product}
    (h : firstMinByKey f l = some p) : ∀ q ∈ l, f p ≤ f q := by
  cases l with
  | nil => simp [firstMinByKey] at h
  | cons x xs =>
    simp only [firstMinByKey, Option.some.injEq] at h
    subst h
    intro q hq
    rcases List.mem_cons.mp hq with rfl | hq
    · exact (foldlMinKey_le f xs q).1
    · exact (foldlMinKey_le f xs x).2 q hq

/-- The recommended wattage is the least multiple of 50 at or above
1.3 times the estimated draw. -/
theorem recommendedWattage_spec (t : Nat) :
    (recommendedWattage t) % 50 = 0 ∧
    (t : ℚ) * 1.3 ≤ (recommendedWattage t : ℚ) ∧
    ((recommendedWattage t : ℚ) - 50) < (t : ℚ) * 1.3 := by
  unfold recommendedWattage
  refine ⟨Int.mul_emod_left _ _, ?_, ?_⟩
  · have h := Int.le_ceil ((t : ℚ) * 1.3 / 50)
    push_cast
    nlinarith [h]
  · have h := Int.ceil_lt_add_one ((t : ℚ) * 1.3 / 50)
    push_cast
    nlinarith [h]

/-- Shape of one overspending entry: the issue carries the first cheapest
qualifying alternative and a saving of at least 2000. -/
theorem overspendIssuesFor_shape (products : List Product) (cat : String)
    (prod : Product) :
    ∀ i ∈ overspendIssuesFor products cat prod, i.itype = "overspending" ∧
      i.severity = Severity.info ∧
      ∃ cheapest, firstMinBy (products.filter (overspendAlt cat prod)) = some cheapest ∧
        2000 ≤ prod.price - cheapest.price ∧
        i.alternativeProduct = some cheapest ∧
        i.savingsAmount = some (prod.price - cheapest.price) := by
  intro i hi
  unfold overspendIssuesFor at hi
  rcases hfm : firstMinBy (products.filter (overspendAlt cat prod)) with _ | cheapest <;>
    rw [hfm] at hi <;> dsimp only at hi
  · simp at hi
  · split at hi
    · simp only [List.mem_singleton] at hi
      subst hi
      exact ⟨rfl, rfl, cheapest, rfl, by assumption, rfl, rfl⟩
    · simp at hi

/-- Every overspending issue comes from one kept map entry, carries the
first cheapest qualifying alternative, and saves at least 2000. -/
theorem checkOverspending_shape (m : List (String × Product))
    (products : List Product) :
    ∀ i ∈ checkOverspending m products, i.itype = "overspending" ∧
      i.severity = Severity.info ∧
      ∃ cat prod cheapest, (cat, prod) ∈ m ∧
        firstMinBy (products.filter (overspendAlt cat prod)) = some cheapest ∧
        2000 ≤ prod.price - cheapest.price ∧
        i.alternativeProduct = some cheapest ∧
        i.savingsAmount = some (prod.price - cheapest.price) := by
  induction m with
  | nil => intro i hi; simp [checkOverspending] at hi
  | cons e rest ih =>
    intro i hi
    rw [checkOverspending, List.foldr_cons] at hi
    rcases List.mem_append.mp hi with hi | hi
    · obtain ⟨h1, h2, cheapest, hfm, hsav, halt, hs⟩ :=
        overspendIssuesFor_shape products e.1 e.2 i hi
      exact ⟨h1, h2, e.1, e.2, cheapest, List.mem_cons_self _ _, hfm, hsav, halt, hs⟩
    · obtain ⟨h1, h2, cat', prod', cheKept, hmem, hrest⟩ := ih i hi
      exact ⟨h1, h2, cat', prod', cheKept, List.mem_cons_of_mem _ hmem, hrest⟩

/-- C1 (amended): with CPU, GPU and PSU resolved, the estimated draw is
CPU TDP + GPU TDP + 100 (defaults 65/150 on unparseable TDP text), exactly
one critical `psu_warning` issue is emitted iff the PSU wattage is below
1.2 times the draw, and the suggested wattage is the least 50-multiple at
or above 1.3 times the draw (550 W for a 385 W draw, not 500 W). -/
theorem analyzeBuild_psu_rule (products : List Product) (build : ParsedBuild)
    (cpu gpu psu : Product)
    (hc : mapGet (matchedMap build.components) "CPU" = some cpu)
    (hg : mapGet (matchedMap build.components) "GPU" = some gpu)
    (hp : mapGet (matchedMap build.components) "PSU" = some psu) :
    estimateTotalTDP cpu gpu =
        parseTDP cpu.specs.tdp 65 + parseTDP gpu.specs.tdp 150 + 100 ∧
    ((analyzeBuild products build).issues.countP
        (fun i => decide (i.itype = "psu_warning")) =
      if ((psu.specs.wattage.getD 0 : ℚ) < (estimateTotalTDP cpu gpu : ℚ) * 1.2)
      then 1 else 0) ∧
    (∀ i ∈ (analyzeBuild products build).issues, i.itype = "psu_warning" →
      i.severity = Severity.critical ∧
      i.suggestion = some ("Upgrade to at least " ++
        toString (recommendedWattage (estimateTotalTDP cpu gpu)) ++
        "W PSU for safe operation.") ∧
      recommendedWattage (estimateTotalTDP cpu gpu) % 50 = 0 ∧
      (estimateTotalTDP cpu gpu : ℚ) * 1.3 ≤
        (recommendedWattage (estimateTotalTDP cpu gpu) : ℚ) ∧
      (recommendedWattage (estimateTotalTDP cpu gpu) : ℚ) - 50 <
        (estimateTotalTDP cpu gpu : ℚ) * 1.3) := by
  have hiss : (analyzeBuild products build).issues =
      issuesOf products (matchedMap build.components) := rfl
  refine ⟨rfl, ?_, ?_⟩
  · rw [hiss]
    unfold issuesOf
    rw [hc, hg, hp, psuIssuesOf_eq]
    simp only [List.countP_append]
    have zmiss : (missingIssuesOf (REQUIRED_CATEGORIES.filter
        (fun c => (mapGet (matchedMap build.components) c).isNone))).countP
        (fun i => decide (i.itype = "psu_warning")) = 0 :=
      List.countP_eq_zero.mpr (fun i hi => by
        simp [(missingIssuesOf_shape _ i hi).1])
    have zbot : (bottleneckIssuesOf (some cpu) (some gpu)).countP
        (fun i => decide (i.itype = "psu_warning")) = 0 :=
      List.countP_eq_zero.mpr (fun i hi => by
        simp [(bottleneckIssuesOf_shape _ _ i hi).1])
    have zsock : (socketIssuesOf (some cpu)
        (mapGet (matchedMap build.components) "Motherboard")).countP
        (fun i => decide (i.itype = "psu_warning")) = 0 :=
      List.countP_eq_zero.mpr (fun i hi => by
        simp [(socketIssuesOf_shape _ _ i hi).1])
    have zcool : (coolerClearanceIssuesOf
        (mapGet (matchedMap build.components) "CPU Cooler")
        (mapGet (matchedMap build.components) "Case")).countP
        (fun i => decide (i.itype = "psu_warning")) = 0 :=
      List.countP_eq_zero.mpr (fun i hi => by
        simp [(coolerClearanceIssuesOf_shape _ _ i hi).1])
    have zgpu : (gpuClearanceIssuesOf (some gpu)
        (mapGet (matchedMap build.components) "Case")).countP
        (fun i => decide (i.itype = "psu_warning")) = 0 :=
      List.countP_eq_zero.mpr (fun i hi => by
        simp [(gpuClearanceIssuesOf_shape _ _ i hi).1])
    have zram : (ramIssuesOf (mapGet (matchedMap build.components) "RAM")
        (mapGet (matchedMap build.components) "Motherboard")).countP
        (fun i => decide (i.itype = "psu_warning")) = 0 :=
      List.countP_eq_zero.mpr (fun i hi => by
        simp [(ramIssuesOf_shape _ _ i hi).1])
    have zchip : (chipsetIssuesOf (some cpu)
        (mapGet (matchedMap build.components) "Motherboard")).countP
        (fun i => decide (i.itype = "psu_warning")) = 0 :=
      List.countP_eq_zero.mpr (fun i hi => by
        simp [(chipsetIssuesOf_shape _ _ i hi).1])
    have zcooling : (coolingIssuesOf products (some cpu)
        (mapGet (matchedMap build.components) "CPU Cooler")).countP
        (fun i => decide (i.itype = "psu_warning")) = 0 := by
      rcases hco : mapGet (matchedMap build.components) "CPU Cooler" with _ | co
      · rw [coolingIssuesOf_eq]
        split <;> simp
      · simp [coolingIssuesOf]
    have zover : (checkOverspending (matchedMap build.components) products).countP
        (fun i => decide (i.itype = "psu_warning")) = 0 :=
      List.countP_eq_zero.mpr (fun i hi => by
        simp [(checkOverspending_shape _ _ i hi).1])
    rw [zmiss, zbot, zsock, zcool, zgpu, zram, zchip, zcooling, zover]
    split <;> simp
  · intro i hi hpsu
    rw [hiss] at hi
    unfold issuesOf at hi
    rw [hc, hg, hp] at hi
    simp only [List.mem_append] at hi
    rcases hi with ((((((((hi | hi) | hi) | hi) | hi) | hi) | hi) | hi) | hi) | hi
    · exact absurd ((missingIssuesOf_shape _ i hi).1.symm.trans hpsu) (by decide)
    · exact absurd ((bottleneckIssuesOf_shape _ _ i hi).1.symm.trans hpsu) (by decide)
    · rw [psuIssuesOf_eq] at hi
      split at hi
      · simp only [List.mem_singleton] at hi
        subst hi
        exact ⟨rfl, rfl, (recommendedWattage_spec _).1,
          (recommendedWattage_spec _).2.1, (recommendedWattage_spec _).2.2⟩
      · simp at hi
    · exact absurd ((socketIssuesOf_shape _ _ i hi).1.symm.trans hpsu) (by decide)
    · exact absurd ((coolerClearanceIssuesOf_shape _ _ i hi).1.symm.trans hpsu) (by decide)
    · exact absurd ((gpuClearanceIssuesOf_shape _ _ i hi).1.symm.trans hpsu) (by decide)
    · exact absurd ((ramIssuesOf_shape _ _ i hi).1.symm.trans hpsu) (by decide)
    · exact absurd ((chipsetIssuesOf_shape _ _ i hi).1.symm.trans hpsu) (by decide)
    · rcases hco : mapGet (matchedMap build.components) "CPU Cooler" with _ | co <;>
        rw [hco] at hi
      · rw [coolingIssuesOf_eq] at hi
        split at hi
        · simp only [List.mem_singleton] at hi
          subst hi
          simp at hpsu
        · simp at hi
      · simp [coolingIssuesOf] at hi
    · exact absurd ((checkOverspending_shape _ _ i hi).1.symm.trans hpsu) (by decide)

/-- A 65 W-TDP CPU (test fixture for the PSU scenario). -/
def c1Cpu : Product :=
  { id := "c1c", name := "Intel Core i5-12400F", normalized_name := "core i5 12400f",
    category := "CPU", brand := "Intel", price := 15000,
    specs := { tdp := some "65W" } }

/-- A 220 W-TDP GPU (test fixture for the PSU scenario). -/
def c1Gpu : Product :=
  { id := "c1g", name := "RTX 4060 Ti", normalized_name := "rtx 4060 ti",
    category := "GPU", brand := "NVIDIA", price := 40000,
    specs := { tdp := some "220W" } }

/-- A 450 W PSU (test fixture for the PSU scenario). -/
def c1Psu : Product :=
  { id := "c1p", name := "450W PSU", normalized_name := "450w psu",
    category := "PSU", brand := "Corsair", price := 3000,
    specs := { wattage := some 450 } }

/-- The 450 W-PSU / 65 W-CPU / 220 W-GPU build of the spec scenario. -/
def c1Build : ParsedBuild :=
  ⟨[compOf c1Cpu, compOf c1Gpu, compOf c1Psu], []⟩

/-- The wattage condition holds on the scenario build: 450 < 385 · 1.2. -/
theorem c1Cond :
    ((c1Psu.specs.wattage.getD 0 : Nat) : ℚ) <
      ((estimateTotalTDP c1Cpu c1Gpu : Nat) : ℚ) * 1.2 := by
  have e1 : c1Psu.specs.wattage.getD 0 = 450 := rfl
  have e2 : estimateTotalTDP c1Cpu c1Gpu = 385 := rfl
  rw [e1, e2]
  norm_num

/-- The recommended wattage at draw 385 is 550. -/
theorem recommendedWattage_385 : recommendedWattage 385 = 550 := by
  have hceil : ⌈(385 : ℚ) * 1.3 / 50⌉ = 11 := by
    apply Int.ceil_eq_iff.mpr
    constructor <;> norm_num
  have hcast : ((385 : ℕ) : ℚ) = 385 := by norm_num
  rw [recommendedWattage, hcast, hceil]
  norm_num

/-- Witness for C1 (amended) on the spec scenario: draw 385 W,
insufficiency issue fired exactly once. -/
theorem analyzeBuild_psu_rule_witness :
    estimateTotalTDP c1Cpu c1Gpu = 385 ∧
    (analyzeBuild [] c1Build).issues.countP
        (fun i => decide (i.itype = "psu_warning")) = 1 := by
  have h := analyzeBuild_psu_rule [] c1Build c1Cpu c1Gpu c1Psu
    (by decide) (by decide) (by decide)
  refine ⟨by decide, ?_⟩
  rw [h.2.1, if_pos c1Cond]

/-- Any `psu_warning` issue of an analysis with CPU, GPU and PSU resolved
comes from the PSU rule segment. -/
theorem psu_issue_mem_segment (products : List Product)
    (m : List (String × Product)) (cpu gpu psu : Product)
    (hc : mapGet m "CPU" = some cpu) (hg : mapGet m "GPU" = some gpu)
    (hp : mapGet m "PSU" = some psu) :
    ∀ i ∈ issuesOf products m, i.itype = "psu_warning" →
      i ∈ psuIssuesOf products (some cpu) (some gpu) (some psu) := by
  intro i hi hpsu
  unfold issuesOf at hi
  rw [hc, hg, hp] at hi
  simp only [List.mem_append] at hi
  rcases hi with ((((((((hi | hi) | hi) | hi) | hi) | hi) | hi) | hi) | hi) | hi
  · exact absurd ((missingIssuesOf_shape _ i hi).1.symm.trans hpsu) (by decide)
  · exact absurd ((bottleneckIssuesOf_shape _ _ i hi).1.symm.trans hpsu) (by decide)
  · exact hi
  · exact absurd ((socketIssuesOf_shape _ _ i hi).1.symm.trans hpsu) (by decide)
  · exact absurd ((coolerClearanceIssuesOf_shape _ _ i hi).1.symm.trans hpsu) (by decide)
  · exact absurd ((gpuClearanceIssuesOf_shape _ _ i hi).1.symm.trans hpsu) (by decide)
  · exact absurd ((ramIssuesOf_shape _ _ i hi).1.symm.trans hpsu) (by decide)
  · exact absurd ((chipsetIssuesOf_shape _ _ i hi).1.symm.trans hpsu) (by decide)
  · rcases hco : mapGet m "CPU Cooler" with _ | co <;> rw [hco] at hi
    · rw [coolingIssuesOf_eq] at hi
      split at hi
      · simp only [List.mem_singleton] at hi
        subst hi
        simp at hpsu
      · simp at hi
    · simp [coolingIssuesOf] at hi
  · exact absurd ((checkOverspending_shape _ _ i hi).1.symm.trans hpsu) (by decide)

/-- The PSU issue emitted on the scenario build (test fixture). -/
def c1PsuIssue : AnalysisIssue :=
  { itype := "psu_warning", severity := .critical
    title := "⚠️ Insufficient PSU Wattage"
    description := "Your " ++ c1Psu.name ++ " (" ++
      toString (c1Psu.specs.wattage.getD 0) ++
      "W) is risky for this build. Estimated system draw: ~" ++
      toString (estimateTotalTDP c1Cpu c1Gpu) ++ "W."
    suggestion := some ("Upgrade to at least " ++
      toString (recommendedWattage (estimateTotalTDP c1Cpu c1Gpu)) ++
      "W PSU for safe operation.")
    alternativeProduct :=
      findBetterPSU (recommendedWattage (estimateTotalTDP c1Cpu c1Gpu)) [] }

/-- C1 counterexample: at draw 385 W the code suggests
ceil(385·1.3/50)·50 = 550 W, not the 500 W the claim computes. -/
theorem analyzeBuild_psu_500_counterexample :
    recommendedWattage 385 = 550 ∧ (550 : Int) ≠ 500 ∧
    (∃ i ∈ (analyzeBuild [] c1Build).issues, i.itype = "psu_warning" ∧
      i.suggestion = some "Upgrade to at least 550W PSU for safe operation.") ∧
    (∀ i ∈ (analyzeBuild [] c1Build).issues, i.itype = "psu_warning" →
      i.suggestion ≠ some "Upgrade to at least 500W PSU for safe operation.") := by
  have hseg : psuIssuesOf [] (some c1Cpu) (some c1Gpu) (some c1Psu) =
      [c1PsuIssue] := by
    rw [psuIssuesOf_eq, if_pos c1Cond]
    rfl
  have hsugg : c1PsuIssue.suggestion =
      some "Upgrade to at least 550W PSU for safe operation." := by
    show some ("Upgrade to at least " ++
      toString (recommendedWattage (estimateTotalTDP c1Cpu c1Gpu)) ++
      "W PSU for safe operation.") = _
    have e2 : estimateTotalTDP c1Cpu c1Gpu = 385 := rfl
    rw [e2, recommendedWattage_385]
    rfl
  have hmem : c1PsuIssue ∈ (analyzeBuild [] c1Build).issues := by
    show _ ∈ issuesOf [] (matchedMap c1Build.components)
    unfold issuesOf
    simp only [List.mem_append]
    refine Or.inl (Or.inl (Or.inl (Or.inl (Or.inl (Or.inl (Or.inl
      (Or.inr ?_)))))))
    rw [show mapGet (matchedMap c1Build.components) "CPU" = some c1Cpu from rfl,
        show mapGet (matchedMap c1Build.components) "GPU" = some c1Gpu from rfl,
        show mapGet (matchedMap c1Build.components) "PSU" = some c1Psu from rfl,
        hseg]
    exact List.mem_singleton.mpr rfl
  refine ⟨recommendedWattage_385, by decide, ⟨c1PsuIssue, hmem, rfl, hsugg⟩, ?_⟩
  intro i hi hpsu
  have hm := psu_issue_mem_segment [] (matchedMap c1Build.components)
    c1Cpu c1Gpu c1Psu rfl rfl rfl i hi hpsu
  rw [hseg, List.mem_singleton] at hm
  subst hm
  rw [hsugg]
  intro hcontra
  exact absurd (Option.some.inj hcontra) (by decide)

/-- What `findBetterPSU` returns: a catalog PSU meeting the minimum
wattage (the first such in catalog order; stock and price are ignored). -/
theorem findBetterPSU_some {w : Int} {ps : List Product} {p : Product}
    (h : findBetterPSU w ps = some p) :
    p ∈ ps ∧ p.category = "PSU" ∧ w ≤ ((p.specs.wattage.getD 0 : Nat) : Int) := by
  unfold findBetterPSU at h
  have hmem := List.mem_of_find?_eq_some h
  have hpred := List.find?_some h
  rw [List.mem_filter] at hmem
  exact ⟨hmem.1, by simpa using hmem.2, by simpa using hpred⟩

/-- `findBetterPSU` returns the FIRST catalog PSU, in catalog order,
meeting the minimum wattage: the catalog splits as `pre ++ p :: suf` with
no qualifying PSU in `pre`. -/
theorem findBetterPSU_first {w : Int} {ps : List Product} {p : Product}
    (h : findBetterPSU w ps = some p) :
    ∃ pre suf, ps = pre ++ p :: suf ∧
      ∀ q ∈ pre, q.category = "PSU" →
        ¬ w ≤ ((q.specs.wattage.getD 0 : Nat) : Int) := by
  induction ps with
  | nil => simp [findBetterPSU] at h
  | cons a t ih =>
    unfold findBetterPSU at h
    rw [List.filter_cons] at h
    by_cases hcat : a.category = "PSU"
    · rw [if_pos (by simpa using hcat)] at h
      by_cases hw : w ≤ ((a.specs.wattage.getD 0 : Nat) : Int)
      · rw [List.find?_cons_of_pos _ (by simpa using hw)] at h
        obtain rfl : a = p := Option.some.inj h
        exact ⟨[], t, rfl, by simp⟩
      · rw [List.find?_cons_of_neg _ (by simpa using hw)] at h
        obtain ⟨pre, suf, heq, hpre⟩ := ih h
        refine ⟨a :: pre, suf, by rw [heq]; rfl, ?_⟩
        intro q hq hqcat
        rcases List.mem_cons.mp hq with rfl | hq'
        · exact hw
        · exact hpre q hq' hqcat
    · rw [if_neg (by simpa using hcat)] at h
      obtain ⟨pre, suf, heq, hpre⟩ := ih h
      refine ⟨a :: pre, suf, by rw [heq]; rfl, ?_⟩
      intro q hq hqcat
      rcases List.mem_cons.mp hq with rfl | hq'
      · exact absurd hqcat hcat
      · exact hpre q hq' hqcat

/-- What `findAftermarketCooler` returns: the cheapest catalog cooler
passing the rating filter (stock is ignored). -/
theorem findAftermarketCooler_some {t : Nat} {ps : List Product} {p : Product}
    (h : findAftermarketCooler t ps = some p) :
    p ∈ ps ∧ p.category = "CPU Cooler" ∧ coolerAdequate p t = true ∧
      ∀ c ∈ ps, c.category = "CPU Cooler" → coolerAdequate c t = true →
        p.price ≤ c.price := by
  unfold findAftermarketCooler at h
  have hmem := firstMinBy_mem h
  have hle := firstMinBy_le h
  rw [List.mem_filter] at hmem
  obtain ⟨hm1, had⟩ := hmem
  rw [List.mem_filter] at hm1
  refine ⟨hm1.1, by simpa using hm1.2, had, ?_⟩
  intro c hc hcat hadq
  refine hle c ?_
  rw [List.mem_filter]
  exact ⟨by rw [List.mem_filter]; exact ⟨hc, by simpa using hcat⟩, hadq⟩

/-- C2 (amended): every alternative product attached to an issue comes
from the catalog; a PSU alternative is the FIRST catalog PSU, in catalog
order, meeting the recommended wattage (no earlier catalog entry is a PSU
meeting it; stock and price are ignored); a cooling alternative is the
cheapest catalog cooler adequately rated for the resolved CPU's TDP
(stock ignored); an overspending alternative is in stock, shares the
overspent component's category, costs under 75 % of it in the same tier,
and is cheapest among qualifying items. -/
theorem analyzeBuild_alternatives (products : List Product) (build : ParsedBuild) :
    ∀ i ∈ (analyzeBuild products build).issues, ∀ alt : Product,
      i.alternativeProduct = some alt →
      alt ∈ products ∧
      (i.itype = "psu_warning" ∨ i.itype = "cooling_inadequate" ∨
        i.itype = "overspending") ∧
      (i.itype = "psu_warning" → alt.category = "PSU" ∧
        ∃ cpu gpu, mapGet (matchedMap build.components) "CPU" = some cpu ∧
          mapGet (matchedMap build.components) "GPU" = some gpu ∧
          recommendedWattage (estimateTotalTDP cpu gpu) ≤
            ((alt.specs.wattage.getD 0 : Nat) : Int) ∧
          ∃ pre suf, products = pre ++ alt :: suf ∧
            ∀ q ∈ pre, q.category = "PSU" →
              ¬ recommendedWattage (estimateTotalTDP cpu gpu) ≤
                ((q.specs.wattage.getD 0 : Nat) : Int)) ∧
      (i.itype = "cooling_inadequate" → alt.category = "CPU Cooler" ∧
        ∃ cpu, mapGet (matchedMap build.components) "CPU" = some cpu ∧
          mapGet (matchedMap build.components) "CPU Cooler" = none ∧
          105 ≤ parseTDP cpu.specs.tdp 65 ∧
          coolerAdequate alt (parseTDP cpu.specs.tdp 65) = true ∧
          ∀ c ∈ products, c.category = "CPU Cooler" →
            coolerAdequate c (parseTDP cpu.specs.tdp 65) = true →
            alt.price ≤ c.price) ∧
      (i.itype = "overspending" → inStock alt = true ∧
        ∃ cat prod, (cat, prod) ∈ matchedMap build.components ∧
          alt.category = cat ∧
          (alt.price : ℚ) < (prod.price : ℚ) * 0.75 ∧
          alt.performance_tier = prod.performance_tier ∧
          ∀ q ∈ products, overspendAlt cat prod q = true → alt.price ≤ q.price) := by
  intro i hi alt halt
  have hi' : i ∈ issuesOf products (matchedMap build.components) := hi
  unfold issuesOf at hi'
  simp only [List.mem_append] at hi'
  rcases hi' with ((((((((hi' | hi') | hi') | hi') | hi') | hi') | hi') | hi') | hi') | hi'
  · rw [(missingIssuesOf_shape _ i hi').2] at halt; cases halt
  · rw [(bottleneckIssuesOf_shape _ _ i hi').2] at halt; cases halt
  · rcases ha : mapGet (matchedMap build.components) "CPU" with _ | cpu <;>
      rw [ha] at hi'
    · simp [psuIssuesOf] at hi'
    rcases hb : mapGet (matchedMap build.components) "GPU" with _ | gpu <;>
      rw [hb] at hi'
    · simp [psuIssuesOf] at hi'
    rcases hp : mapGet (matchedMap build.components) "PSU" with _ | psu <;>
      rw [hp] at hi'
    · simp [psuIssuesOf] at hi'
    rw [psuIssuesOf_eq] at hi'
    split at hi'
    · simp only [List.mem_singleton] at hi'
      subst hi'
      obtain ⟨hmem, hcat, hwatt⟩ := findBetterPSU_some halt
      obtain ⟨pre, suf, heq, hpre⟩ := findBetterPSU_first halt
      refine ⟨hmem, Or.inl rfl,
        fun _ => ⟨hcat, cpu, gpu, rfl, rfl, hwatt, pre, suf, heq, hpre⟩,
        fun hx => ?_, fun hx => ?_⟩ <;> simp at hx
    · simp at hi'
  · rw [(socketIssuesOf_shape _ _ i hi').2] at halt; cases halt
  · rw [(coolerClearanceIssuesOf_shape _ _ i hi').2] at halt; cases halt
  · rw [(gpuClearanceIssuesOf_shape _ _ i hi').2] at halt; cases halt
  · rw [(ramIssuesOf_shape _ _ i hi').2] at halt; cases halt
  · rw [(chipsetIssuesOf_shape _ _ i hi').2] at halt; cases halt
  · rcases ha : mapGet (matchedMap build.components) "CPU" with _ | cpu <;>
      rw [ha] at hi'
    · simp [coolingIssuesOf] at hi'
    rcases hco : mapGet (matchedMap build.components) "CPU Cooler" with _ | co <;>
      rw [hco] at hi'
    · rw [coolingIssuesOf_eq] at hi'
      split at hi'
      · simp only [List.mem_singleton] at hi'
        subst hi'
        obtain ⟨hmem, hcat, hadq, hmin⟩ := findAftermarketCooler_some halt
        refine ⟨hmem, Or.inr (Or.inl rfl), fun hx => ?_,
          fun _ => ⟨hcat, cpu, rfl, rfl, by assumption, hadq, hmin⟩,
          fun hx => ?_⟩ <;> simp at hx
      · simp at hi'
    · simp [coolingIssuesOf] at hi'
  · obtain ⟨h1, _h2, cat, prod, cheapest, hkept, hfm, _hsav, haltEq, _hs⟩ :=
      checkOverspending_shape _ _ i hi'
    rw [haltEq] at halt
    obtain rfl : cheapest = alt := Option.some.inj halt
    have hmem := firstMinBy_mem hfm
    have hle := firstMinBy_le hfm
    rw [List.mem_filter] at hmem
    obtain ⟨hmemP, hq⟩ := hmem
    have hq' := hq
    unfold overspendAlt at hq'
    simp only [Bool.and_eq_true, decide_eq_true_eq] at hq'
    obtain ⟨hqcat, _hqid, hqprice, hqstock, hqtier⟩ := hq'
    refine ⟨hmemP, Or.inr (Or.inr h1), fun hx => ?_, fun hx => ?_,
      fun _ => ⟨hqstock, cat, prod, hkept, hqcat, hqprice, hqtier, ?_⟩⟩
    · rw [h1] at hx; simp at hx
    · rw [h1] at hx; simp at hx
    · intro q hqmem hqalt
      exact hle q (by rw [List.mem_filter]; exact ⟨hqmem, hqalt⟩)

/-- A 205 W-TDP CPU (test fixture for the alternatives scenario). -/
def c2Cpu : Product :=
  { id := "c2c", name := "Ryzen 7 7700X", normalized_name := "ryzen 7 7700x",
    category := "CPU", brand := "AMD", price := 30000,
    specs := { tdp := some "205W" } }

/-- A 200 W-TDP GPU (test fixture for the alternatives scenario). -/
def c2Gpu : Product :=
  { id := "c2g", name := "RX 7800 XT", normalized_name := "rx 7800 xt",
    category := "GPU", brand := "AMD", price := 45000,
    specs := { tdp := some "200W" } }

/-- A 450 W PSU in the build (test fixture). -/
def c2Psu450 : Product :=
  { id := "c2p", name := "VS450", normalized_name := "vs450",
    category := "PSU", brand := "Corsair", price := 2500,
    specs := { wattage := some 450 } }

/-- An out-of-stock, expensive 700 W PSU listed first in the catalog. -/
def c2PsuOut : Product :=
  { id := "ps1", name := "HX700 Platinum", normalized_name := "hx700 platinum",
    category := "PSU", brand := "Corsair", price := 9000,
    stock := some false, specs := { wattage := some 700 } }

/-- An in-stock, cheap 700 W PSU listed second in the catalog. -/
def c2PsuCheap : Product :=
  { id := "ps2", name := "MWE 700 Bronze", normalized_name := "mwe 700 bronze",
    category := "PSU", brand := "Cooler Master", price := 3000,
    specs := { wattage := some 700 } }

/-- The two-PSU catalog (test fixture). -/
def c2Products : List Product := [c2PsuOut, c2PsuCheap]

/-- The 450 W-PSU build of the alternatives scenario. -/
def c2Build : ParsedBuild :=
  ⟨[compOf c2Cpu, compOf c2Gpu, compOf c2Psu450], []⟩

/-- The PSU issue emitted on the alternatives scenario (test fixture). -/
def c2PsuIssue : AnalysisIssue :=
  { itype := "psu_warning", severity := .critical
    title := "⚠️ Insufficient PSU Wattage"
    description := "Your " ++ c2Psu450.name ++ " (" ++
      toString (c2Psu450.specs.wattage.getD 0) ++
      "W) is risky for this build. Estimated system draw: ~" ++
      toString (estimateTotalTDP c2Cpu c2Gpu) ++ "W."
    suggestion := some ("Upgrade to at least " ++
      toString (recommendedWattage (estimateTotalTDP c2Cpu c2Gpu)) ++
      "W PSU for safe operation.")
    alternativeProduct :=
      findBetterPSU (recommendedWattage (estimateTotalTDP c2Cpu c2Gpu)) c2Products }

/-- The recommended wattage at draw 505 is 700. -/
theorem recommendedWattage_505 : recommendedWattage 505 = 700 := by
  have hceil : ⌈(505 : ℚ) * 1.3 / 50⌉ = 14 := by
    apply Int.ceil_eq_iff.mpr
    constructor <;> norm_num
  have hcast : ((505 : ℕ) : ℚ) = 505 := by norm_num
  rw [recommendedWattage, hcast, hceil]
  norm_num

/-- The scenario PSU issue really is emitted by the analyzer. -/
theorem c2PsuIssue_mem : c2PsuIssue ∈ (analyzeBuild c2Products c2Build).issues := by
  have hcond : ((c2Psu450.specs.wattage.getD 0 : Nat) : ℚ) <
      ((estimateTotalTDP c2Cpu c2Gpu : Nat) : ℚ) * 1.2 := by
    have e1 : c2Psu450.specs.wattage.getD 0 = 450 := rfl
    have e2 : estimateTotalTDP c2Cpu c2Gpu = 505 := rfl
    rw [e1, e2]
    norm_num
  show _ ∈ issuesOf c2Products (matchedMap c2Build.components)
  unfold issuesOf
  simp only [List.mem_append]
  refine Or.inl (Or.inl (Or.inl (Or.inl (Or.inl (Or.inl (Or.inl
    (Or.inr ?_)))))))
  rw [show mapGet (matchedMap c2Build.components) "CPU" = some c2Cpu from rfl,
      show mapGet (matchedMap c2Build.components) "GPU" = some c2Gpu from rfl,
      show mapGet (matchedMap c2Build.components) "PSU" = some c2Psu450 from rfl,
      psuIssuesOf_eq, if_pos hcond]
  exact List.mem_singleton.mpr rfl

/-- The scenario issue's alternative is the first catalog PSU meeting the
recommended wattage: the out-of-stock, more expensive one. -/
theorem c2PsuIssue_alt : c2PsuIssue.alternativeProduct = some c2PsuOut := by
  show findBetterPSU (recommendedWattage (estimateTotalTDP c2Cpu c2Gpu)) c2Products =
    some c2PsuOut
  rw [show estimateTotalTDP c2Cpu c2Gpu = 505 from rfl, recommendedWattage_505]
  rfl

/-- Witness for C2 (amended) on the alternatives scenario. -/
theorem analyzeBuild_alternatives_witness :
    c2PsuOut ∈ c2Products ∧ c2PsuOut.category = "PSU" := by
  have h := analyzeBuild_alternatives c2Products c2Build c2PsuIssue
    c2PsuIssue_mem c2PsuOut c2PsuIssue_alt
  exact ⟨h.1, (h.2.2.1 rfl).1⟩

/-- C2 counterexample: the PSU alternative attached by the analyzer is out
of stock and not the cheapest catalog PSU meeting the recommended wattage
(a cheaper in-stock one exists), refuting "in stock" and "cheapest". -/
theorem analyzeBuild_alternatives_counterexample :
    c2PsuIssue ∈ (analyzeBuild c2Products c2Build).issues ∧
    c2PsuIssue.itype = "psu_warning" ∧
    c2PsuIssue.alternativeProduct = some c2PsuOut ∧
    c2PsuOut.stock = some false ∧
    c2PsuCheap ∈ c2Products ∧
    c2PsuCheap.category = "PSU" ∧
    inStock c2PsuCheap = true ∧
    recommendedWattage (estimateTotalTDP c2Cpu c2Gpu) ≤
      ((c2PsuCheap.specs.wattage.getD 0 : Nat) : Int) ∧
    c2PsuCheap.price < c2PsuOut.price := by
  refine ⟨c2PsuIssue_mem, rfl, c2PsuIssue_alt, rfl, by decide, rfl, rfl, ?_, by decide⟩
  rw [show estimateTotalTDP c2Cpu c2Gpu = 505 from rfl, recommendedWattage_505]
  decide

/-- `firstMinByKey` is none exactly on the empty list. -/
theorem firstMinByKey_eq_none {f : Product → ℚ} {l : List Product} :
    firstMinByKey f l = none ↔ l = [] := by
  cases l <;> simp [firstMinByKey]

/-- C4 (amended): with a truthy budget, the category fallback returns an
in-stock catalog item of the category; among items within 1.5× the
category target it is one **closest to the target** (not the cheapest),
and when no item is within that bound it is the cheapest candidate. -/
theorem pickCategoryFallback_closest (products : List Product) (category : String)
    (b : Nat) (hb : b ≠ 0) (p : Product)
    (h : pickCategoryFallback products category (some b) = some p) :
    p ∈ products ∧ p.category = category ∧ inStock p = true ∧
    (((p.price : ℚ) ≤ categoryBudgetTarget category b * 1.5 ∧
      ∀ q ∈ products, q.category = category → inStock q = true →
        (q.price : ℚ) ≤ categoryBudgetTarget category b * 1.5 →
        |(p.price : ℚ) - categoryBudgetTarget category b| ≤
          |(q.price : ℚ) - categoryBudgetTarget category b|) ∨
     ((∀ q ∈ products, q.category = category → inStock q = true →
        ¬ ((q.price : ℚ) ≤ categoryBudgetTarget category b * 1.5)) ∧
      (∀ q ∈ products, q.category = category → inStock q = true →
        p.price ≤ q.price))) := by
  unfold pickCategoryFallback at h
  dsimp only at h
  split at h
  · cases h
  split at h
  · rename_i hcond
    exact absurd (by simp [hasBudgetVal, hb] : hasBudgetVal (some b) = true)
      (by simpa using hcond)
  · rcases hfk : firstMinByKey
        (fun q => |(q.price : ℚ) - categoryBudgetTarget category ((some b).getD 0)|)
        ((products.filter (fun q => q.category = category ∧ inStock q)).filter
          (fun q => (q.price : ℚ) ≤ categoryBudgetTarget category ((some b).getD 0) * 1.5))
        with _ | p' <;> rw [hfk] at h
    · -- no item within the bound: the overall cheapest candidate
      have hempty := firstMinByKey_eq_none.mp hfk
      have hmem := firstMinBy_mem h
      have hle := firstMinBy_le h
      rw [List.mem_filter] at hmem
      obtain ⟨hm, hpq⟩ := hmem
      simp only [Bool.and_eq_true, decide_eq_true_eq] at hpq
      refine ⟨hm, hpq.1, hpq.2, Or.inr ⟨?_, ?_⟩⟩
      · intro q hq hqc hqs hqb
        have : q ∈ (products.filter (fun q => q.category = category ∧ inStock q)).filter
            (fun q => (q.price : ℚ) ≤ categoryBudgetTarget category ((some b).getD 0) * 1.5) := by
          rw [List.mem_filter]
          refine ⟨by rw [List.mem_filter]; exact ⟨hq, by simp [hqc, hqs]⟩, by simpa using hqb⟩
        rw [hempty] at this
        cases this
      · intro q hq hqc hqs
        exact hle q (by rw [List.mem_filter]; exact ⟨hq, by simp [hqc, hqs]⟩)
    · -- some item within the bound: closest to the target wins
      obtain rfl : p' = p := Option.some.inj h
      have hmem := firstMinByKey_mem hfk
      have hle := firstMinByKey_le hfk
      rw [List.mem_filter] at hmem
      obtain ⟨hm1, hbound⟩ := hmem
      rw [List.mem_filter] at hm1
      obtain ⟨hm, hpq⟩ := hm1
      simp only [Bool.and_eq_true, decide_eq_true_eq] at hpq
      refine ⟨hm, hpq.1, hpq.2, Or.inl ⟨by simpa using hbound, ?_⟩⟩
      intro q hq hqc hqs hqb
      have hqmem : q ∈ (products.filter (fun q => q.category = category ∧ inStock q)).filter
          (fun q => (q.price : ℚ) ≤ categoryBudgetTarget category ((some b).getD 0) * 1.5) := by
        rw [List.mem_filter]
        refine ⟨by rw [List.mem_filter]; exact ⟨hq, by simp [hqc, hqs]⟩, by simpa using hqb⟩
      simpa using hle q hqmem

/-- The claim's reading of the fallback (claim-side refinement model):
the **cheapest** in-stock item within 1.5× the category target, else the
overall cheapest in-stock item of the category. -/
def specPickCategoryFallback (products : List Product) (category : String)
    (budget : Option Nat) : Option Product :=
  let candidates := products.filter (fun p => p.category = category ∧ inStock p)
  match budget with
  | none => firstMinBy candidates
  | some b =>
    match firstMinBy (candidates.filter
        (fun p => (p.price : ℚ) ≤ categoryBudgetTarget category b * 1.5)) with
    | some p => some p
    | none => firstMinBy candidates

/-- A very cheap in-stock GPU (test fixture). -/
def c4Gpu100 : Product :=
  { id := "g100", name := "GT 710", normalized_name := "gt 710",
    category := "GPU", brand := "NVIDIA", price := 100 }

/-- An in-stock GPU priced exactly at the category target (test fixture). -/
def c4Gpu350 : Product :=
  { id := "g350", name := "GTX 1650", normalized_name := "gtx 1650",
    category := "GPU", brand := "NVIDIA", price := 350 }

/-- The two-GPU catalog (test fixture). -/
def c4Products : List Product := [c4Gpu100, c4Gpu350]

/-- The code's fallback picks the target-closest in-bound item. -/
theorem pickCategoryFallback_c4 :
    pickCategoryFallback c4Products "GPU" (some 1000) = some c4Gpu350 := by
  have hne : ((none : Option Bool) = some false) = False := by simp
  norm_num [pickCategoryFallback, c4Products, c4Gpu100, c4Gpu350, categoryBudgetTarget,
    inStock, hasBudgetVal, firstMinBy, firstMinByKey, List.filter, hne]

/-- C4 counterexample: with budget 1000 and a GPU target of 350, the code
returns the 350-priced item (closest to target) while the claim's
"cheapest within 1.5× target" picks the 100-priced one. -/
theorem pickCategoryFallback_cheapest_counterexample :
    pickCategoryFallback c4Products "GPU" (some 1000) = some c4Gpu350 ∧
    specPickCategoryFallback c4Products "GPU" (some 1000) = some c4Gpu100 ∧
    c4Gpu350 ≠ c4Gpu100 ∧
    (c4Gpu100.price : ℚ) ≤ categoryBudgetTarget "GPU" 1000 * 1.5 ∧
    inStock c4Gpu100 = true ∧
    c4Gpu100.price < c4Gpu350.price := by
  have hne : ((none : Option Bool) = some false) = False := by simp
  refine ⟨pickCategoryFallback_c4, ?_, by decide, ?_, rfl, by decide⟩
  · norm_num [specPickCategoryFallback, c4Products, c4Gpu100, c4Gpu350,
      categoryBudgetTarget, inStock, firstMinBy, List.filter, hne]
  · norm_num [categoryBudgetTarget, c4Gpu100]

/-- Witness for C4 (amended) on the two-GPU catalog. -/
theorem pickCategoryFallback_closest_witness :
    c4Gpu350 ∈ c4Products ∧ c4Gpu350.category = "GPU" ∧
      inStock c4Gpu350 = true := by
  have h := pickCategoryFallback_closest c4Products "GPU" 1000 (by decide)
    c4Gpu350 pickCategoryFallback_c4
  exact ⟨h.1, h.2.1, h.2.2.1⟩

/-- Whatever branch returned it, the category fallback's result has the
requested category. -/
theorem pickCategoryFallback_some_category {products : List Product}
    {category : String} {budget : Option Nat} {p : Product}
    (h : pickCategoryFallback products category budget = some p) :
    p.category = category := by
  unfold pickCategoryFallback at h
  dsimp only at h
  split at h
  · cases h
  split at h
  · have hm := firstMinBy_mem h
    rw [List.mem_filter] at hm
    have h2 := hm.2
    rw [decide_eq_true_eq] at h2
    exact h2.1
  · rcases hfk : firstMinByKey
        (fun q => |(q.price : ℚ) - categoryBudgetTarget category (budget.getD 0)|)
        ((products.filter (fun q => q.category = category ∧ inStock q)).filter
          (fun q => (q.price : ℚ) ≤ categoryBudgetTarget category (budget.getD 0) * 1.5))
        with _ | p' <;> rw [hfk] at h
    · have hm := firstMinBy_mem h
      rw [List.mem_filter] at hm
      have h2 := hm.2
      rw [decide_eq_true_eq] at h2
      exact h2.1
    · obtain rfl : p' = p := Option.some.inj h
      have hm := firstMinByKey_mem hfk
      rw [List.mem_filter] at hm
      have hm1 := hm.1
      rw [List.mem_filter] at hm1
      have h2 := hm1.2
      rw [decide_eq_true_eq] at h2
      exact h2.1

/-- One balanced step adds at most one item, and only of its category. -/
theorem balancedStep_countP (products deduped : List Product)
    (budget : Option Nat) (st : List Product × List String) (category cat : String) :
    ((balancedStep products deduped budget st category).1.countP
      (fun p => decide (p.category = cat))) ≤
    st.1.countP (fun p => decide (p.category = cat)) +
      (if cat = category then 1 else 0) := by
  unfold balancedStep
  dsimp only
  rcases hv : (deduped.find? (fun p => p.category = category ∧ ¬ st.2.contains p.id) <|>
      pickCategoryFallback products category budget) with _ | c <;> dsimp only
  · split <;> omega
  · have hcat : c.category = category := by
      rcases hfi : deduped.find?
          (fun p => p.category = category ∧ ¬ st.2.contains p.id) with _ | c0 <;>
        rw [hfi] at hv
      · simp only [Option.none_orElse] at hv
        exact pickCategoryFallback_some_category hv
      · simp only [Option.some_orElse] at hv
        obtain rfl : c0 = c := Option.some.inj hv
        have := List.find?_some hfi
        rw [decide_eq_true_eq] at this
        exact this.1
    by_cases hctn : st.2.contains c.id = true
    · rw [if_pos hctn]
      split <;> omega
    · rw [if_neg hctn, List.countP_append]
      by_cases hc : cat = category
      · subst hc
        simp [List.countP, List.countP.go, hcat]
      · have hne : ¬ (c.category = cat) := by rw [hcat]; exact fun hh => hc hh.symm
        simp [List.countP, List.countP.go, hne, hc]

/-- The balanced fold keeps at most one item per category, over any
duplicate-free category list. -/
theorem balanced_fold_countP (products deduped : List Product)
    (budget : Option Nat) (cats : List String) (hnd : cats.Nodup)
    (st : List Product × List String) (cat : String) :
    ((cats.foldl (balancedStep products deduped budget) st).1.countP
      (fun p => decide (p.category = cat))) ≤
    st.1.countP (fun p => decide (p.category = cat)) +
      (if cat ∈ cats then 1 else 0) := by
  induction cats generalizing st with
  | nil => simp
  | cons c cs ih =>
    rw [List.foldl_cons]
    have hnd' := (List.nodup_cons.mp hnd).2
    have hnotin := (List.nodup_cons.mp hnd).1
    have hih := ih hnd' (balancedStep products deduped budget st c)
    have hstep := balancedStep_countP products deduped budget st c cat
    by_cases h1 : cat = c
    · subst h1
      rw [if_neg hnotin] at hih
      rw [if_pos rfl] at hstep
      rw [if_pos (List.mem_cons_self cat cs)]
      omega
    · rw [if_neg h1] at hstep
      have hmemiff : (cat ∈ c :: cs) ↔ (cat ∈ cs) := by
        simp [List.mem_cons, h1]
      by_cases h4 : cat ∈ cs
      · rw [if_pos h4] at hih
        rw [if_pos (hmemiff.mpr h4)]
        omega
      · rw [if_neg h4] at hih
        rw [if_neg (fun hh => h4 (hmemiff.mp hh))]
        omega

/-- C3 (amended): the returned list never exceeds the requested limit, and
the balanced selection phase (before top-up) contains at most one item per
category; the top-up phase may add further items of already-covered
categories. -/
theorem optimizeResults_bounds :
    (∀ (products : List Product) (query : String) (initialResults : List Product)
        (limit : Nat),
      (optimizeResultsForQuery products query initialResults limit).length ≤ limit) ∧
    (∀ (products deduped : List Product) (budget : Option Nat) (cat : String),
      ((balancedSelection products deduped budget).1.countP
        (fun p => decide (p.category = cat))) ≤ 1) := by
  constructor
  · intro products query initialResults limit
    unfold optimizeResultsForQuery
    split
    · exact (List.length_take _ _).trans_le (min_le_left _ _)
    · exact (List.length_take _ _).trans_le (min_le_left _ _)
  · intro products deduped budget cat
    have h := balanced_fold_countP products deduped budget BUILD_CATEGORIES
      (by decide) ([], []) cat
    unfold balancedSelection
    refine le_trans h ?_
    split <;> simp

/-- C3 counterexample: on a build query with two CPUs among the initial
results and an empty catalog, the top-up phase appends the second CPU, so
the final list carries two items of one required category. -/
theorem optimizeResults_topup_counterexample :
    optimizeResultsForQuery [] "pc" [cpuP1, cpuP2] 5 = [cpuP1, cpuP2] ∧
    (optimizeResultsForQuery [] "pc" [cpuP1, cpuP2] 5).countP
      (fun p => decide (p.category = "CPU")) = 2 := by
  refine ⟨by decide, by decide⟩

/-- `Char.toLower` is idempotent. -/
theorem toLower_toLower (c : Char) : c.toLower.toLower = c.toLower := by
  unfold Char.toLower
  by_cases h : 65 ≤ c.toNat ∧ c.toNat ≤ 90
  · rw [if_pos h]
    have hv : (c.toNat + 32).isValidChar := Or.inl (by omega)
    have ht : (Char.ofNat (c.toNat + 32)).toNat = c.toNat + 32 := by
      rw [Char.ofNat, dif_pos hv]
      simp [Char.ofNatAux, Char.toNat, UInt32.toNat]
    rw [if_neg (by omega :
      ¬ (65 ≤ (Char.ofNat (c.toNat + 32)).toNat ∧
         (Char.ofNat (c.toNat + 32)).toNat ≤ 90))]
  · rw [if_neg h, if_neg h]

/-- Lower-casing a string is idempotent. -/
theorem toLowerStr_idem (s : String) : toLowerStr (toLowerStr s) = toLowerStr s := by
  unfold toLowerStr
  congr 1
  show (s.data.map Char.toLower).map Char.toLower = s.data.map Char.toLower
  rw [List.map_map]
  exact List.map_congr_left (fun c _ => toLower_toLower c)

/-- Parsing the budget of an already-lower-cased query changes nothing. -/
theorem parseBudget_toLower (q : String) :
    parseBudgetFromQuery (toLowerStr q) = parseBudgetFromQuery q := by
  unfold parseBudgetFromQuery
  rw [toLowerStr_idem]

/-- C10 (amended): whenever budget detection succeeds, the query is
classified as a build query, and the budget is the value parsed from the
first digit-and-comma run of the match (commas stripped), multiplied by
1000 exactly when the `k` suffix matched or the value is at most 999.
(A query containing a digit can still yield no budget: see the
counterexample, where a comma precedes every digit.) -/
theorem parseBudget_build_query (q : String) (b : Nat)
    (h : parseBudgetFromQuery q = some b) :
    isBuildQuery q = true ∧
    ∃ v kf, budgetMatchValue (toLowerStr q) = some (v, kf) ∧
      b = (if kf = true ∨ v ≤ 999 then v * 1000 else v) ∧
      (v ≤ 999 → b = v * 1000) ∧ (kf = true → b = v * 1000) := by
  constructor
  · unfold isBuildQuery
    dsimp only
    rw [parseBudget_toLower, h]
    simp
  · have h0 := h
    unfold parseBudgetFromQuery at h0
    rcases hbm : budgetMatchValue (toLowerStr q) with _ | vk <;> rw [hbm] at h0
    · cases h0
    · obtain ⟨v, kf⟩ := vk
      dsimp only at h0
      have hb := (Option.some.inj h0).symm
      refine ⟨v, kf, rfl, hb, ?_, ?_⟩
      · intro hv
        rw [hb, if_pos (Or.inr hv)]
      · intro hk
        rw [hb, if_pos (Or.inl hk)]

/-- Witness for C10 (amended) on the query `80k`. -/
theorem parseBudget_build_query_witness :
    isBuildQuery "80k" = true ∧ parseBudgetFromQuery "80k" = some 80000 :=
  ⟨(parseBudget_build_query "80k" 80000 (by decide)).1, by decide⟩

/-- C10 counterexample: `hello, 5` contains a digit, yet budget detection
matches the bare comma first, parses no number, returns null, and the
query is not classified as a build query. -/
theorem parseBudget_digit_counterexample :
    ('5' ∈ "hello, 5".data ∧ '5'.isDigit = true) ∧
    parseBudgetFromQuery "hello, 5" = none ∧
    isBuildQuery "hello, 5" = false := by
  refine ⟨by decide, by decide, by decide⟩

/-- Squared norms are nonnegative. -/
theorem normSqList_nonneg (a : List ℝ) : 0 ≤ normSqList a := by
  unfold normSqList
  induction a with
  | nil => simp
  | cons x xs ih =>
    rw [List.map_cons, List.sum_cons]
    nlinarith [sq_nonneg x]

/-- Cauchy–Schwarz for the loop sums of `cosineSimilarity`. -/
theorem dot_sq_le (a b : List ℝ) :
    (dotList a b) ^ 2 ≤ normSqList a * normSqList b := by
  induction a generalizing b with
  | nil => simp [dotList, normSqList]
  | cons x xs ih =>
    cases b with
    | nil =>
      simp only [dotList, normSqList, List.zipWith_nil_right, List.sum_nil]
      have := normSqList_nonneg (x :: xs)
      have := normSqList_nonneg ([] : List ℝ)
      simp only [normSqList, List.map_nil, List.sum_nil] at *
      nlinarith
    | cons y ys =>
      have h := ih ys
      have hA := normSqList_nonneg xs
      have hB := normSqList_nonneg ys
      have e1 : dotList (x :: xs) (y :: ys) = x * y + dotList xs ys := by
        simp [dotList]
      have e2 : normSqList (x :: xs) = x * x + normSqList xs := by
        simp [normSqList]
      have e3 : normSqList (y :: ys) = y * y + normSqList ys := by
        simp [normSqList]
      rw [e1, e2, e3]
      have hu : 0 ≤ x * x * normSqList ys + normSqList xs * (y * y) :=
        add_nonneg (mul_nonneg (mul_self_nonneg x) hB)
          (mul_nonneg hA (mul_self_nonneg y))
      have husq : (2 * (x * y) * dotList xs ys) ^ 2 ≤
          (x * x * normSqList ys + normSqList xs * (y * y)) ^ 2 := by
        nlinarith [sq_nonneg (x * x * normSqList ys - normSqList xs * (y * y)),
          mul_nonneg (sq_nonneg (x * y)) (sub_nonneg.mpr h), h]
      have hw : 2 * (x * y) * dotList xs ys ≤
          x * x * normSqList ys + normSqList xs * (y * y) := by
        nlinarith [husq, hu,
          sq_nonneg (x * x * normSqList ys + normSqList xs * (y * y) -
            2 * (x * y) * dotList xs ys),
          sq_nonneg (x * x * normSqList ys + normSqList xs * (y * y) +
            2 * (x * y) * dotList xs ys)]
      nlinarith [h, hw]

/-- C7: on equal-length vectors the similarity is the dot product over the
product of magnitudes, lies in [-1, 1], and is 0 when a magnitude is 0;
on mismatched lengths it is 0 (and the function is total: it never
errors). -/
theorem cosineSimilarity_props (a b : List ℝ) :
    (a.length = b.length →
      cosineSimilarity a b ∈ Set.Icc (-1 : ℝ) 1 ∧
      (Real.sqrt (normSqList a) * Real.sqrt (normSqList b) ≠ 0 →
        cosineSimilarity a b =
          dotList a b / (Real.sqrt (normSqList a) * Real.sqrt (normSqList b))) ∧
      (Real.sqrt (normSqList a) * Real.sqrt (normSqList b) = 0 →
        cosineSimilarity a b = 0)) ∧
    (a.length ≠ b.length → cosineSimilarity a b = 0) := by
  constructor
  · intro hlen
    have hA := normSqList_nonneg a
    have hB := normSqList_nonneg b
    have hd := dot_sq_le a b
    have habs : |dotList a b| ≤ Real.sqrt (normSqList a) * Real.sqrt (normSqList b) := by
      rw [← Real.sqrt_mul hA, ← Real.sqrt_sq_eq_abs]
      exact Real.sqrt_le_sqrt hd
    have hm0 : 0 ≤ Real.sqrt (normSqList a) * Real.sqrt (normSqList b) :=
      mul_nonneg (Real.sqrt_nonneg _) (Real.sqrt_nonneg _)
    unfold cosineSimilarity
    rw [if_neg (by simp [hlen])]
    dsimp only
    by_cases hm : Real.sqrt (normSqList a) * Real.sqrt (normSqList b) = 0
    · rw [if_pos hm]
      exact ⟨by constructor <;> norm_num, fun hc => absurd hm hc, fun _ => rfl⟩
    · rw [if_neg hm]
      have hmpos : 0 < Real.sqrt (normSqList a) * Real.sqrt (normSqList b) :=
        lt_of_le_of_ne hm0 (Ne.symm hm)
      have hdiv : |dotList a b / (Real.sqrt (normSqList a) * Real.sqrt (normSqList b))| ≤ 1 := by
        rw [abs_div, abs_of_pos hmpos]
        exact (div_le_one hmpos).mpr habs
      have hpair := abs_le.mp hdiv
      exact ⟨⟨hpair.1, hpair.2⟩, fun _ => rfl, fun hc => absurd hc hm⟩
  · intro hlen
    unfold cosineSimilarity
    rw [if_pos hlen]

/-- Witness for C7 on the concrete orthogonal pair ([1,0], [0,1]). -/
theorem cosineSimilarity_props_witness :
    cosineSimilarity [(1 : ℝ), 0] [(0 : ℝ), 1] ∈ Set.Icc (-1 : ℝ) 1 ∧
    cosineSimilarity [(1 : ℝ), 0] [(0 : ℝ), 1, 2] = 0 :=
  ⟨((cosineSimilarity_props [(1 : ℝ), 0] [(0 : ℝ), 1]).1 (by rfl)).1,
   (cosineSimilarity_props [(1 : ℝ), 0] [(0 : ℝ), 1, 2]).2 (by simp)⟩

/-- One line step preserves "pairwise distinct categories, all recorded in
the matched-category set". -/
theorem lineStep_invariant (products : List Product)
    (st : List ParsedComponent × List String × List String) (line : String)
    (hpw : st.1.Pairwise (fun a b => a.category ≠ b.category))
    (hmem : ∀ c ∈ st.1, c.category ∈ st.2.1) :
    ((lineStep products st line).1.Pairwise (fun a b => a.category ≠ b.category)) ∧
    (∀ c ∈ (lineStep products st line).1,
      c.category ∈ (lineStep products st line).2.1) := by
  unfold lineStep
  split
  · exact ⟨hpw, hmem⟩
  · rcases hp : parseComponent products line with _ | parsed <;> dsimp only
    · exact ⟨hpw, hmem⟩
    · split
      · exact ⟨hpw, hmem⟩
      · rename_i hctn
        have hnotmem : parsed.category ∉ st.2.1 := by
          simpa [List.contains, List.elem_eq_mem] using hctn
        have hqcat : (if parsed.matchedProduct.isNone = true then
            if 0 < extractPriceFromText line then
              { parsed with extractedPrice := some (extractPriceFromText line) }
            else parsed
          else parsed).category = parsed.category := by
          split
          · split <;> rfl
          · rfl
        constructor
        · rw [List.pairwise_append]
          refine ⟨hpw, List.pairwise_singleton _ _, ?_⟩
          intro a ha b hb
          rw [List.mem_singleton] at hb
          subst hb
          rw [hqcat]
          exact fun hh => hnotmem (hh ▸ hmem a ha)
        · intro c hc
          rcases List.mem_append.mp hc with hc | hc
          · exact List.mem_cons_of_mem _ (hmem c hc)
          · rw [List.mem_singleton] at hc
            subst hc
            rw [hqcat]
            exact List.mem_cons_self _ _

/-- The line loop keeps categories pairwise distinct. -/
theorem lineLoop_invariant (products : List Product) (lines : List String)
    (st : List ParsedComponent × List String × List String)
    (hpw : st.1.Pairwise (fun a b => a.category ≠ b.category))
    (hmem : ∀ c ∈ st.1, c.category ∈ st.2.1) :
    ((lineLoop products lines st).1.Pairwise (fun a b => a.category ≠ b.category)) ∧
    (∀ c ∈ (lineLoop products lines st).1,
      c.category ∈ (lineLoop products lines st).2.1) := by
  induction lines generalizing st with
  | nil => exact ⟨hpw, hmem⟩
  | cons l ls ih =>
    have h := lineStep_invariant products st l hpw hmem
    exact ih (lineStep products st l) h.1 h.2

/-- The whole-input fallback emits at most one component per category. -/
theorem extractComponentsFromText_distinct (products : List Product) (text : String) :
    (extractComponentsFromText products text).Pairwise
      (fun a b => a.category ≠ b.category) := by
  unfold extractComponentsFromText
  suffices h : ∀ (pats : List (String × List RE)) (acc : List ParsedComponent),
      acc.Pairwise (fun a b => a.category ≠ b.category) →
      (pats.foldl (fun comps e =>
        match e.2.findSome? (fun re => (reSearch re text.data none).map (fun r => r.1)) with
        | some m0 =>
          if comps.any (fun c => c.category = e.1) then comps
          else
            let matched := findBestMatch products text e.1
            comps ++ [{ category := e.1
                        rawText := (⟨m0⟩ : String)
                        matchedProduct := matched
                        confidence := (match matched with
                          | some p => calculateConfidence text p
                          | none => 0.3) }]
        | none => comps) acc).Pairwise (fun a b => a.category ≠ b.category) by
    exact h CATEGORY_PATTERNS [] (by simp)
  intro pats
  induction pats with
  | nil => intro acc hacc; exact hacc
  | cons e es ih =>
    intro acc hacc
    rw [List.foldl_cons]
    apply ih
    rcases hfs : e.2.findSome?
        (fun re => (reSearch re text.data none).map (fun r => r.1)) with _ | m0 <;>
      rw [hfs] <;> dsimp only
    · exact hacc
    · split
      · exact hacc
      · rename_i hany
        rw [List.pairwise_append]
        refine ⟨hacc, List.pairwise_singleton _ _, ?_⟩
        intro a ha b hb
        rw [List.mem_singleton] at hb
        subst hb
        intro hh
        exact hany (List.any_eq_true.mpr ⟨a, ha, by simpa using hh⟩)

/-- C5 (amended): when the input is not detected as table format and
contains no marketplace URLs, the parsed build has at most one component
per category (the table path and multiple same-category URLs can emit
duplicates). -/
theorem parseBuildList_one_per_category (products : List Product) (input : String)
    (hpcpp : isPCPartPickerFormat input = false)
    (hurl : extractComponentsFromURLs products input = []) :
    (parseBuildList products input).components.Pairwise
      (fun a b => a.category ≠ b.category) := by
  unfold parseBuildList
  dsimp only
  rw [if_neg (by simp [hpcpp])]
  rw [hurl]
  dsimp only
  split
  · exact extractComponentsFromText_distinct products input
  · exact (lineLoop_invariant products _ ([], [], []) (by simp) (by simp)).1

/-- Witness for C5 (amended) on a comma-separated two-component line. -/
theorem parseBuildList_one_per_category_witness :
    (parseBuildList [] "rtx 4070, ryzen 5 7600").components.Pairwise
      (fun a b => a.category ≠ b.category) :=
  parseBuildList_one_per_category [] "rtx 4070, ryzen 5 7600"
    (by decide) (by decide)

/-- C5 counterexample: a PCPartPicker-style table with two CPU rows yields
two components of category CPU in one parsed build. -/
theorem parseBuildList_table_counterexample :
    (parseBuildList [] "Type | Item\n| CPU | Ryzen 5 |\n| CPU | Core i5 |").components.map
        (fun c => c.category) = ["CPU", "CPU"] ∧
    ((parseBuildList [] "Type | Item\n| CPU | Ryzen 5 |\n| CPU | Core i5 |").components.countP
        (fun c => decide (c.category = "CPU"))) = 2 := by
  refine ⟨by decide, by decide⟩
